import Mathlib

/-!
Verification of the chart composition engine of the `datachart` library
(`datachart/utils/overlay.py` and `datachart/utils/figure.py`).

The Python code is shallowly embedded: floating point numbers are modelled
as exact rationals (`ℚ`), Python dictionaries with fixed key sets as
structures with `Option` fields (a `none` field models a missing key),
Python exceptions as `Except`/`Option` results (`none`/`Except.error`
models a raised, propagated exception), and emitted `warnings.warn` calls
as returned lists of warning values.  Matplotlib drawing primitives are
recorded as call descriptions (`BarCall`, `AxisCall`) holding the numeric
arguments the engine computes; purely visual styling (colors, fonts,
hatches) is outside the modelled scope.
-/

namespace Datachart

/-- A y-axis data range `(min, max)`, as produced by `_get_data_range`. -/
abbrev DataRange := ℚ × ℚ

/-- Model of `_scale_compatible(range1, range2, threshold)` from
`datachart/utils/overlay.py`: both spans are computed; if either span is
zero the ranges are compatible; otherwise they are compatible iff
`max(span1, span2) / min(span1, span2) < threshold`. -/
def _scale_compatible (range1 range2 : DataRange) (threshold : ℚ) : Bool :=
  let span1 := range1.2 - range1.1
  let span2 := range2.2 - range2.1
  if span1 = 0 ∨ span2 = 0 then true
  else decide (max span1 span2 / min span1 span2 < threshold)

/-- The subset of the global configuration dictionary (`config.config`) that
the overlay module reads.  A `none` field models the key being absent from
the dictionary, so `config.get(key, default)` is modelled by
`Option.getD`. -/
structure ConfigMap where
  overlay_warn_scale_groups : Option Bool := none
  overlay_auto_threshold : Option ℚ := none
  overlay_bar_mode : Option String := none
  plot_bar_width : Option ℚ := none
  overlay_bar_alpha : Option ℚ := none
  overlay_hist_alpha : Option ℚ := none
  overlay_warn_thin_bars : Option Bool := none
  overlay_default_zorder_bar : Option ℤ := none
  overlay_default_zorder_line : Option ℤ := none
  overlay_default_zorder_scatter : Option ℤ := none
  overlay_default_zorder_hist : Option ℤ := none
  deriving Repr, DecidableEq

/-- The keys of the `DEFAULT_THEME` dictionary of
`datachart/themes/default.py`, in source order. -/
def DEFAULT_THEME_keys : List String :=
  ["color_general_singular", "color_general_multiple",
   "font_general_family", "font_general_sansserif", "font_general_color",
   "font_general_size", "font_general_style", "font_general_weight",
   "font_title_size", "font_title_color", "font_title_style",
   "font_title_weight", "font_subtitle_size", "font_subtitle_color",
   "font_subtitle_style", "font_subtitle_weight", "font_xlabel_size",
   "font_xlabel_color", "font_xlabel_style", "font_xlabel_weight",
   "font_ylabel_size", "font_ylabel_color", "font_ylabel_style",
   "font_ylabel_weight", "axes_spines_top_visible",
   "axes_spines_right_visible", "axes_spines_bottom_visible",
   "axes_spines_left_visible", "axes_spines_width", "axes_spines_zorder",
   "axes_ticks_length", "axes_ticks_label_size", "plot_legend_shadow",
   "plot_legend_frameon", "plot_legend_alignment", "plot_legend_font_size",
   "plot_legend_title_size", "plot_legend_label_color", "plot_area_alpha",
   "plot_area_color", "plot_area_linewidth", "plot_area_hatch",
   "plot_area_zorder", "plot_grid_alpha", "plot_grid_color",
   "plot_grid_linewidth", "plot_grid_linestyle", "plot_grid_zorder",
   "plot_line_color", "plot_line_style", "plot_line_marker",
   "plot_line_width", "plot_line_alpha", "plot_line_drawstyle",
   "plot_line_zorder", "plot_bar_color", "plot_bar_alpha",
   "plot_bar_width", "plot_bar_zorder", "plot_bar_hatch",
   "plot_bar_edge_width", "plot_bar_edge_color", "plot_bar_error_color",
   "plot_hist_color", "plot_hist_alpha", "plot_hist_zorder",
   "plot_hist_fill", "plot_hist_hatch", "plot_hist_type",
   "plot_hist_align", "plot_hist_edge_width", "plot_hist_edge_color",
   "plot_vline_color", "plot_vline_style", "plot_vline_width",
   "plot_vline_alpha", "plot_hline_color", "plot_hline_style",
   "plot_hline_width", "plot_hline_alpha", "plot_heatmap_cmap",
   "plot_heatmap_alpha", "plot_heatmap_font_size",
   "plot_heatmap_font_color", "plot_heatmap_font_style",
   "plot_heatmap_font_weight"]

/-- The restriction of `DEFAULT_THEME` to the configuration keys the
overlay module reads: of those keys only `plot_bar_width` is present in
the default theme (value `0.8`); in particular none of the `overlay_*`
keys are. -/
def DEFAULT_THEME_overlay : ConfigMap :=
  { plot_bar_width := some (4/5) }

/-- One per-series record of a chart (`charts[i]` in the metadata): the
results of `get_chart_data(attr, chart)` for each attribute the overlay
module extracts.  `get_chart_data` returns `None` when the attribute is
missing from the data (or present in no record); that is modelled by a
`none` field.  A present-but-empty array (possible when `data` is a dict
holding an empty array) is `some []`. -/
structure Chart where
  x : Option (List ℚ) := none
  y : Option (List ℚ) := none
  yerr : Option (List ℚ) := none
  label : Option (List String) := none
  subtitle : Option String := none
  deriving Repr, DecidableEq

/-- The `_chart_metadata` attrs dictionary a datachart figure carries.  Only
the keys read by the composition engine are modelled; `none` = key absent.
`show_yerr`/`show_area` model `settings.get("show_yerr", False)` and
`settings.get("show_area", False)`. -/
structure Metadata where
  type : Option String := none
  charts : Option (List Chart) := none
  num_bins : Option ℕ := none
  show_yerr : Bool := false
  show_area : Bool := false
  orientation : Option String := none
  config_snapshot : Option ConfigMap := none
  theme : Option String := none
  deriving Repr, DecidableEq

/-- A rendered figure: it may or may not carry the `_chart_metadata`
attribute. -/
structure Figure where
  _chart_metadata : Option Metadata := none
  deriving Repr, DecidableEq

/-- The dictionary returned by `_extract_chart_data`: chart type, the
normalized chart list, and the raw metadata. -/
structure ChartData where
  type : String
  charts : List Chart
  metadata : Metadata
  deriving Repr, DecidableEq

/-- Model of `_extract_chart_data(figure)`: raises (`Except.error`) when the
figure has no `_chart_metadata`, or the metadata is missing `type` or
`charts`; otherwise returns the chart type, chart list and metadata. -/
def _extract_chart_data (figure : Figure) : Except String ChartData :=
  match figure._chart_metadata with
  | none => .error ("Figure is missing chart metadata")
  | some metadata =>
    match metadata.type with
    | none => .error ("Figure has invalid metadata: missing type")
    | some chart_type =>
      match metadata.charts with
      | none => .error ("Figure has invalid metadata: missing charts")
      | some charts_list =>
        .ok { type := chart_type, charts := charts_list, metadata := metadata }

/-- The number of samples of `xs` falling into bin `i` of `n` equal bins
over `[lo, hi]`, with every bin half-open except the last, which is closed
(numpy's binning rule). -/
def histCount (lo hi : ℚ) (n : ℕ) (xs : List ℚ) (i : ℕ) : ℕ :=
  xs.countP (fun v =>
    decide (lo + i * (hi - lo) / n ≤ v) &&
    (decide (v < lo + (i + 1) * (hi - lo) / n) || decide (i + 1 = n)))

/-- Model of the bin counts of `np.histogram(xs, bins=n)` (first component
of the result).  `np.histogram` raises `ValueError` when the integer bin
count is not positive, modelled by `none`.  For an empty input the value
range defaults to `(0, 1)` and every count is zero; when all samples are
equal, numpy widens the range to `(v - 0.5, v + 0.5)`. -/
def npHistogramCounts (xs : List ℚ) (n : ℕ) : Option (List ℕ) :=
  if n = 0 then none
  else some <|
    match xs with
    | [] => List.replicate n 0
    | v :: rest =>
      let lo := rest.foldl min v
      let hi := rest.foldl max v
      let lo' := if lo = hi then lo - 1/2 else lo
      let hi' := if lo = hi then hi + 1/2 else hi
      (List.range n).map (histCount lo' hi' n xs)

/-- Model of the bin edges of `np.histogram(xs, bins=n)` (second component
of the result), under the same range rules as `npHistogramCounts`. -/
def npHistogramEdges (xs : List ℚ) (n : ℕ) : Option (List ℚ) :=
  if n = 0 then none
  else some <|
    match xs with
    | [] => (List.range (n + 1)).map (fun i => (i : ℚ) / n)
    | v :: rest =>
      let lo := rest.foldl min v
      let hi := rest.foldl max v
      let lo' := if lo = hi then lo - 1/2 else lo
      let hi' := if lo = hi then hi + 1/2 else hi
      (List.range (n + 1)).map (fun i => lo' + i * (hi' - lo') / n)

/-- The y values one chart record contributes to `_get_data_range`:
line/bar/scatter charts contribute their raw `y` values (nothing when
missing); a histogram chart contributes the bin counts
`np.histogram(x, bins=num_bins)[0]` computed from its raw `x` samples,
which may raise (`none`); other chart types contribute nothing. -/
def chartYValues (chart_type : String) (num_bins : ℕ) (chart : Chart) :
    Option (List ℚ) :=
  if chart_type = "linechart" ∨ chart_type = "barchart" ∨
      chart_type = "scatterchart" then
    some (chart.y.getD [])
  else if chart_type = "histogram" then
    match chart.x with
    | none => some []
    | some xs => (npHistogramCounts xs num_bins).map (fun cs => cs.map Nat.cast)
  else
    some []

/-- The `y_values` list accumulated by the loop of `_get_data_range`, in
chart order; `none` when the numpy histogram call raises. -/
def collectYValues (chart_type : String) (num_bins : ℕ) :
    List Chart → Option (List ℚ)
  | [] => some []
  | chart :: rest => do
    let v ← chartYValues chart_type num_bins chart
    let vs ← collectYValues chart_type num_bins rest
    pure (v ++ vs)

/-- Model of `_get_data_range(chart_data)`: collects all y values (bin
counts for histograms, using `metadata.get("num_bins", 20)`), returns
`(0, 1)` when none were collected and `(min, max)` otherwise.  `none`
models a raised exception. -/
def _get_data_range (chart_data : ChartData) : Option (ℚ × ℚ) := do
  let y_values ← collectYValues chart_data.type
    (chart_data.metadata.num_bins.getD 20) chart_data.charts
  match y_values with
  | [] => pure (0, 1)
  | v :: rest => pure (rest.foldl min v, rest.foldl max v)

/-- One entry of the `chart_configs` list built by `OverlayChart`: the
extracted chart data, its data range and the per-chart overlay options. -/
structure ChartConfig where
  chart_data : ChartData := { type := "", charts := [], metadata := {} }
  data_range : DataRange := (0, 1)
  y_axis : String := "auto"
  z_order : Option ℤ := none
  legend_label : Option String := none
  deriving Repr, DecidableEq

instance : Inhabited ChartConfig := ⟨{}⟩

/-- `ranges[i]` (indices used by the clustering code are always in bounds). -/
def rangeAt (ranges : List DataRange) (i : ℕ) : DataRange :=
  ranges.getD i (0, 0)

/-- `chart_configs[i]["data_range"]`. -/
def rangeOf (cfgs : List ChartConfig) (i : ℕ) : DataRange :=
  (cfgs.getD i default).data_range

/-- The inner loop of `_cluster_by_scale_compatibility`: scan the remaining
unassigned indices in order; an index `j` joins `group` only when it is
compatible with every current member of `group` (the adjacency used is
`_scale_compatible` on the stored data ranges).  Returns the grown group
together with the indices that stay unassigned, in order. -/
def extendGroup (ranges : List DataRange) (t : ℚ) :
    List ℕ → List ℕ → List ℕ × List ℕ
  | group, [] => (group, [])
  | group, j :: rest =>
    if group.all (fun k =>
        _scale_compatible (rangeAt ranges k) (rangeAt ranges j) t) then
      extendGroup ranges t (group ++ [j]) rest
    else
      let p := extendGroup ranges t group rest
      (p.1, j :: p.2)

/-- The outer loop of `_cluster_by_scale_compatibility`: start a new group
at the first unassigned index and grow it with `extendGroup`.  The fuel
argument only bounds the recursion and never runs out when it is at least
the length of the index list. -/
def buildGroups (ranges : List DataRange) (t : ℚ) :
    ℕ → List ℕ → List (List ℕ)
  | _, [] => []
  | 0, _ :: _ => []
  | fuel + 1, i :: rest =>
    let p := extendGroup ranges t [i] rest
    p.1 :: buildGroups ranges t fuel p.2

/-- Model of `_cluster_by_scale_compatibility(chart_configs, auto_threshold)`
(the Python function receives the chart configs and reads only their
`data_range` fields, passed here directly): greedily partition the chart
indices `0..n-1` into exclusive clusters of mutually compatible charts. -/
def _cluster_by_scale_compatibility (ranges : List DataRange) (t : ℚ) :
    List (List ℕ) :=
  if ranges.length = 0 then []
  else if ranges.length = 1 then [[0]]
  else buildGroups ranges t ranges.length (List.range ranges.length)

/-- Stable insertion implementing Python
`sorted(groups, key=len, reverse=True)`: an element is placed before the
first element of strictly smaller length, so groups of equal size keep
their original relative order. -/
def insertByLenDesc (g : List ℕ) : List (List ℕ) → List (List ℕ)
  | [] => [g]
  | h :: rest =>
    if h.length ≤ g.length then g :: h :: rest else h :: insertByLenDesc g rest

/-- Stable sort of the clusters by member count, descending. -/
def sortByLenDesc (groups : List (List ℕ)) : List (List ℕ) :=
  groups.foldr insertByLenDesc []

/-- `for chart_idx in sorted_groups[1]: assignments[chart_idx] = "right"`. -/
def setAxisRight (assignments : List String) (idxs : List ℕ) : List String :=
  idxs.foldl (fun a i => a.set i "right") assignments

/-- The non-fatal warnings the overlay module can emit via `warnings.warn`. -/
inductive OverlayWarning where
  | scaleGroupOverflow (numGroups : ℕ) (sizes : List ℕ)
  | incompatibleOnAxis (axis : String) (i j : ℕ)
  | invalidBarMode (mode : String)
  | thinBars (width : ℚ) (numBarCharts : ℕ)
  deriving Repr, DecidableEq

/-- One step of the sequential (explicit/mixed) assignment loop of
`_determine_axis_assignment`: an explicit `"left"`/`"right"` binding is
honored; the first chart defaults to `"left"`; otherwise the chart goes
left iff it is scale-compatible with some earlier chart already assigned
to the left axis. -/
def seqStep (t : ℚ) (doneCfgs : List ChartConfig) (doneAsn : List String)
    (cfg : ChartConfig) : String :=
  if cfg.y_axis = "left" ∨ cfg.y_axis = "right" then cfg.y_axis
  else if doneAsn.length = 0 then "left"
  else if (doneAsn.zip doneCfgs).any
      (fun p => p.1 == "left" && _scale_compatible cfg.data_range p.2.data_range t)
  then "left"
  else "right"

/-- The sequential assignment loop, carrying the processed configs and the
assignments made so far. -/
def seqGo (t : ℚ) : List ChartConfig → List String → List ChartConfig → List String
  | _, doneAsn, [] => doneAsn
  | doneCfgs, doneAsn, cfg :: rest =>
    seqGo t (doneCfgs ++ [cfg]) (doneAsn ++ [seqStep t doneCfgs doneAsn cfg]) rest

/-- The assignments produced by the sequential branch of
`_determine_axis_assignment`. -/
def sequentialAssignments (cfgs : List ChartConfig) (t : ℚ) : List String :=
  seqGo t [] [] cfgs

/-- The post-placement incompatibility scan of the sequential branch: for
each index `i` of the axis group, the first later group member incompatible
with it yields one warning (the inner Python loop `break`s after it). -/
def pairIncompatWarnings (cfgs : List ChartConfig) (t : ℚ) (axis : String) :
    List ℕ → List OverlayWarning
  | [] => []
  | i :: rest =>
    (match rest.find? (fun j =>
        !_scale_compatible (rangeOf cfgs i) (rangeOf cfgs j) t) with
     | some j => [OverlayWarning.incompatibleOnAxis axis i j]
     | none => []) ++ pairIncompatWarnings cfgs t axis rest

/-- Model of `_determine_axis_assignment(chart_configs, auto_threshold)`.
`warn_scale_groups` is the value of
`config.get("overlay_warn_scale_groups", True)` read at call time.  When
every binding is `"auto"` and that flag is true, the clustering policy is
used: clusters are sorted by size (descending, stably), every chart of the
second-largest cluster goes right, every other chart goes left, and a
warning is emitted when there are more than two clusters.  Otherwise the
sequential policy runs, followed by the per-axis incompatibility scans.
Returns the assignments together with the emitted warnings. -/
def _determine_axis_assignment (cfgs : List ChartConfig) (t : ℚ)
    (warn_scale_groups : Bool) : List String × List OverlayWarning :=
  if cfgs.length = 0 then ([], [])
  else
    let all_auto := cfgs.all (fun c => c.y_axis == "auto")
    if all_auto && warn_scale_groups then
      let groups := _cluster_by_scale_compatibility (cfgs.map (·.data_range)) t
      let sorted_groups := sortByLenDesc groups
      let base := List.replicate cfgs.length "left"
      let assignments :=
        match sorted_groups.get? 1 with
        | some second => setAxisRight base second
        | none => base
      (assignments,
        if 2 < sorted_groups.length then
          [OverlayWarning.scaleGroupOverflow sorted_groups.length
            (sorted_groups.map List.length)]
        else [])
    else
      let assignments := sequentialAssignments cfgs t
      let right_charts := (List.range cfgs.length).filter
        (fun i => assignments.getD i ("") == "right")
      let left_charts := (List.range cfgs.length).filter
        (fun i => assignments.getD i ("") == "left")
      (assignments,
        (if 1 < right_charts.length then
          pairIncompatWarnings cfgs t "right" right_charts else []) ++
        (if 1 < left_charts.length then
          pairIncompatWarnings cfgs t "left" left_charts else []))

/-- The arguments of one `ax.bar`/`ax.barh` call emitted by
`_plot_bar_on_axis`.  For horizontal bars matplotlib names the same
quantities `height`/`left`/`xerr` instead of `width`/`bottom`/`yerr`; the
numeric content is identical and recorded once, with the orientation
flag. -/
structure BarCall where
  xs : List ℚ
  ys : List ℚ
  width : ℚ
  bottom : Option (List ℚ) := none
  yerr : Option (List ℚ) := none
  label : Option String := none
  alpha : Option ℚ := none
  zorder : ℤ := 0
  horizontal : Bool := false
  deriving Repr, DecidableEq

/-- `bottoms + np.array(y)` for 1-D arrays: equal lengths add elementwise,
a length-1 operand broadcasts, any other shape combination raises
(`none`). -/
def npAddVec (a b : List ℚ) : Option (List ℚ) :=
  if a.length = b.length then some (List.zipWith (fun u v => u + v) a b)
  else
    match a, b with
    | [u], _ => some (b.map (fun v => u + v))
    | _, [v] => some (a.map (fun u => u + v))
    | _, _ => none

/-- `legend_label if legend_label is not None else chart.get("subtitle")`,
the label resolution shared by all per-type renderers. -/
def resolveLabel (legend_label : Option String) (chart : Chart) : Option String :=
  match legend_label with
  | some l => some l
  | none => chart.subtitle

/-- The chart loop of `_plot_bar_on_axis`, carrying the enumeration index
and the running `bar_bottoms` vector.  A chart with missing `y` or `label`
data is skipped (but still consumes its index).  In stack mode the bottoms
are attached to the call and then advanced by the chart's `y` values;
error bars are suppressed except on the last chart in stack mode. -/
def plotBarGo (bar_mode : String) (x_width : ℚ) (show_yerr : Bool)
    (is_horizontal : Bool) (z_order : ℤ) (legend_label : Option String)
    (alpha : Option ℚ) (n_charts : ℕ) :
    ℕ → Option (List ℚ) → List Chart → Option (List BarCall)
  | _, _, [] => some []
  | idx, bar_bottoms, chart :: rest =>
    match chart.y, chart.label with
    | some y, some labels =>
      let x_offset : ℚ := if bar_mode = "group" then idx * x_width else 0
      let xs := (List.range labels.length).map (fun k => (k : ℚ) + x_offset)
      let show_error := show_yerr && chart.yerr.isSome &&
        (!(bar_mode == "stack") || idx == n_charts - 1)
      let call : BarCall :=
        { xs := xs, ys := y, width := x_width,
          bottom := if bar_mode = "stack" then bar_bottoms else none,
          yerr := if show_error then chart.yerr else none,
          label := resolveLabel legend_label chart, alpha := alpha,
          zorder := z_order, horizontal := is_horizontal }
      let next : Option (Option (List ℚ)) :=
        if bar_mode = "stack" then
          bar_bottoms.elim (some none) (fun b => (npAddVec b y).map some)
        else some bar_bottoms
      next.bind (fun nb =>
        (plotBarGo bar_mode x_width show_yerr is_horizontal z_order
          legend_label alpha n_charts (idx + 1) nb rest).map
          (fun calls => call :: calls))
    | _, _ =>
      plotBarGo bar_mode x_width show_yerr is_horizontal z_order legend_label
        alpha n_charts (idx + 1) bar_bottoms rest

/-- Model of `_plot_bar_on_axis(ax, charts, settings, color_cycle, z_order,
color_override, legend_label, bar_mode)`: returns the bar calls appended
to the axis together with the invalid-mode warning when one fires.  `none`
models a raised exception: dividing the bar width by zero charts in group
mode, indexing `charts[0]` of an empty list in stack mode, or a shape
mismatch while accumulating stacked bottoms.  An unspecified mode falls
back to `config.get("overlay_bar_mode", "group")`; an invalid mode warns
and falls back to `"group"`. -/
def _plot_bar_on_axis (charts : List Chart) (settings : Metadata)
    (cfg : ConfigMap) (z_order : ℤ) (legend_label : Option String)
    (bar_mode0 : Option String) :
    Option (List BarCall × List OverlayWarning) :=
  let is_horizontal := settings.orientation.getD ("vertical") == "horizontal"
  let n_charts := charts.length
  let bm0 := bar_mode0.getD (cfg.overlay_bar_mode.getD ("group"))
  let valid := bm0 == "group" || bm0 == "stack" || bm0 == "overlay"
  let warns : List OverlayWarning :=
    if valid then [] else [OverlayWarning.invalidBarMode bm0]
  let bar_mode := if valid then bm0 else "group"
  let width_base := cfg.plot_bar_width.getD (4/5)
  match (if bar_mode = "group" then
          (if n_charts = 0 then none else some (width_base / n_charts))
         else some width_base) with
  | none => none
  | some x_width =>
    let alpha := if 1 < n_charts ∧ bar_mode = "overlay" then
        some (cfg.overlay_bar_alpha.getD (7/10))
      else none
    match (if bar_mode = "stack" then
            match charts with
            | [] => none
            | c :: _ =>
              some (c.label.map (fun ls => List.replicate ls.length (0 : ℚ)))
           else some none) with
    | none => none
    | some bar_bottoms =>
      match plotBarGo bar_mode x_width settings.show_yerr is_horizontal
          z_order legend_label alpha n_charts 0 bar_bottoms charts with
      | none => none
      | some calls => some (calls, warns)

/-- One drawing primitive appended to an axis by the per-type overlay
renderers (colors, hatches and marker sizing are outside the modelled
scope). -/
inductive AxisCall where
  | bar (call : BarCall)
  | fillBetween (xs lower upper : List ℚ)
  | linePlot (xs ys : List ℚ) (label : Option String) (zorder : ℤ)
  | scatterPlot (xs ys : List ℚ) (label : Option String) (zorder : ℤ)
  | histPlot (xs binEdges : List ℚ) (label : Option String) (zorder : ℤ)
  deriving Repr, DecidableEq

/-- Model of `_plot_line_on_axis`: per chart with both `x` and `y` present,
an optional error band (`fill_between` of `y ∓ yerr`, only when the length
matches `y`), an optional area fill under the curve, then the line itself.
Charts with missing data are skipped. -/
def _plot_line_on_axis (settings : Metadata) (z_order : ℤ)
    (legend_label : Option String) (charts : List Chart) : List AxisCall :=
  charts.foldr (fun chart acc =>
    match chart.x, chart.y with
    | some x, some y =>
      ((if settings.show_yerr then
          match chart.yerr with
          | some ye =>
            if ye.length = y.length then
              [AxisCall.fillBetween x (List.zipWith (fun a b => a - b) y ye)
                (List.zipWith (fun a b => a + b) y ye)]
            else []
          | none => []
        else []) ++
       (if settings.show_area then
          [AxisCall.fillBetween x (List.replicate y.length 0) y]
        else []) ++
       [AxisCall.linePlot x y
         (match legend_label with
          | some l => some l
          | none => chart.subtitle) z_order]) ++ acc
    | _, _ => acc) []

/-- Model of `_plot_scatter_on_axis` at call granularity: one scatter call
per chart with both `x` and `y` present (hue grouping and size
normalization change only colors, labels and marker sizes). -/
def _plot_scatter_on_axis (z_order : ℤ) (legend_label : Option String)
    (charts : List Chart) : List AxisCall :=
  charts.foldr (fun chart acc =>
    match chart.x, chart.y with
    | some x, some y =>
      AxisCall.scatterPlot x y
        (match legend_label with
         | some l => some l
         | none => chart.subtitle) z_order :: acc
    | _, _ => acc) []

/-- Model of `_plot_histogram_on_axis`: shared bin edges are computed once
from the concatenation of all charts' samples with
`settings.get("num_bins", 20)` bins (which raises, `none`, for a stored
bin count of zero); nothing is drawn when no chart has samples; then one
hist call per chart with samples, all sharing the edges. -/
def _plot_histogram_on_axis (settings : Metadata) (z_order : ℤ)
    (legend_label : Option String) (charts : List Chart) :
    Option (List AxisCall) :=
  let num_bins := settings.num_bins.getD 20
  let xall := charts.filterMap (fun c => c.x)
  if xall.isEmpty then some []
  else
    match npHistogramEdges xall.flatten num_bins with
    | none => none
    | some bins =>
      some (charts.filterMap (fun chart =>
        chart.x.map (fun x => AxisCall.histPlot x bins
          (match legend_label with
           | some l => some l
           | none => chart.subtitle) z_order)))

/-- The process-wide mutable state of the `config` singleton: the active
configuration dictionary (`config.config`) and theme name
(`config.theme`). -/
structure GlobalConfig where
  config : ConfigMap
  theme : String
  deriving Repr, DecidableEq

/-- The default z-order `_plot_chart_on_axis` reads from the (possibly
temporarily swapped) configuration when the caller supplies none. -/
def defaultZOrder (cfg : ConfigMap) (chart_type : String) : ℤ :=
  if chart_type = "barchart" then cfg.overlay_default_zorder_bar.getD 1
  else if chart_type = "linechart" then cfg.overlay_default_zorder_line.getD 2
  else if chart_type = "scatterchart" then
    cfg.overlay_default_zorder_scatter.getD 2
  else if chart_type = "histogram" then cfg.overlay_default_zorder_hist.getD 1
  else 1

/-- The body of the `try` block of `_plot_chart_on_axis`, rendering under
the currently installed global configuration `g`: resolve the z-order and
dispatch on the chart type.  Unknown chart types draw nothing.  `none`
models an exception raised by the renderer. -/
def renderChartCalls (g : GlobalConfig) (chart_data : ChartData)
    (z_order0 : Option ℤ) (legend_label : Option String)
    (bar_mode : Option String) :
    Option (List AxisCall × List OverlayWarning) :=
  let settings := chart_data.metadata
  let z_order := z_order0.getD (defaultZOrder g.config chart_data.type)
  if chart_data.type = "linechart" then
    some (_plot_line_on_axis settings z_order legend_label chart_data.charts, [])
  else if chart_data.type = "barchart" then
    match _plot_bar_on_axis chart_data.charts settings g.config z_order
        legend_label bar_mode with
    | none => none
    | some p => some (p.1.map AxisCall.bar, p.2)
  else if chart_data.type = "scatterchart" then
    some (_plot_scatter_on_axis z_order legend_label chart_data.charts, [])
  else if chart_data.type = "histogram" then
    match _plot_histogram_on_axis settings z_order legend_label
        chart_data.charts with
    | none => none
    | some calls => some (calls, [])
  else some ([], [])

/-- Model of `_plot_chart_on_axis(ax, chart_data, z_order, color_override,
legend_label, bar_mode)` as a transformer of the global configuration
state: the current `config.config`/`config.theme` are saved; when the
metadata carries a `config_snapshot` it is installed (together with its
`theme` when present); the body renders under the installed configuration;
the `finally` block restores the saved state on both the normal and the
exceptional (`none`) path.  Returns the body's outcome paired with the
global state after the call. -/
def _plot_chart_on_axis (g : GlobalConfig) (chart_data : ChartData)
    (z_order : Option ℤ) (legend_label : Option String)
    (bar_mode : Option String) :
    Option (List AxisCall × List OverlayWarning) × GlobalConfig :=
  let original_config := g.config
  let original_theme := g.theme
  let g1 : GlobalConfig :=
    match chart_data.metadata.config_snapshot with
    | some snap =>
      { config := snap,
        theme := match chart_data.metadata.theme with
                 | some th => th
                 | none => g.theme }
    | none => g
  (renderChartCalls g1 chart_data z_order legend_label bar_mode,
   { config := original_config, theme := original_theme })

/-- One entry of the `charts` argument of `OverlayChart`; `figure = none`
models a dictionary without the `"figure"` key, and the remaining fields
model `chart_config.get(key, default)`. -/
structure ChartEntry where
  figure : Option Figure := none
  y_axis : String := "auto"
  z_order : Option ℤ := none
  legend_label : Option String := none
  deriving Repr, DecidableEq

/-- The observable outcome of a successful `OverlayChart` call: the built
chart configs, the resolved axis assignments, whether a right (twin) axis
object was instantiated (`ax_right = ax_left.twinx()` runs iff some chart
is assigned `"right"`), the resolved bar mode and threshold, and the
warnings emitted.  Label/limit/legend cosmetics and the per-axis drawing
(delegated to `_plot_chart_on_axis`) are outside the recorded outcome. -/
structure OverlayResult where
  chart_configs : List ChartConfig
  axis_assignments : List String
  hasRightAxis : Bool
  bar_mode : String
  threshold : ℚ
  warnings : List OverlayWarning
  deriving Repr, DecidableEq

/-- The figure-validation and range-extraction loop of `OverlayChart`:
raises when an entry is missing its `"figure"` key, when a figure carries
no metadata or invalid metadata (via `_extract_chart_data`), and
propagates an exception raised by `_get_data_range`. -/
def buildChartConfigs : ℕ → List ChartEntry → Except String (List ChartConfig)
  | _, [] => .ok []
  | i, entry :: rest =>
    match entry.figure with
    | none => .error ("Chart at index " ++ toString i ++ " is missing figure key")
    | some figure => do
      let chart_data ← _extract_chart_data figure
      let data_range ←
        match _get_data_range chart_data with
        | some r => Except.ok r
        | none => Except.error ("ValueError raised while computing data range")
      let restCfgs ← buildChartConfigs (i + 1) rest
      .ok ({ chart_data := chart_data, data_range := data_range,
             y_axis := entry.y_axis, z_order := entry.z_order,
             legend_label := entry.legend_label } :: restCfgs)

/-- Model of `OverlayChart(charts, ..., auto_secondary_axis, ..., bar_mode)`
up to its observable composition outcome: validate and extract every
entry, resolve the threshold and bar mode from the configuration when not
supplied, determine the axis assignments, decide whether the right axis is
instantiated, and collect the warnings (assignment warnings first, then
the thin-bars warning for many grouped bar charts). -/
def OverlayChart (charts : List ChartEntry) (cfg : ConfigMap)
    (auto_secondary_axis : Option ℚ) (bar_mode : Option String) :
    Except String OverlayResult :=
  if charts.length = 0 then .error ("At least one chart is required")
  else do
    let t := match auto_secondary_axis with
             | some v => v
             | none => cfg.overlay_auto_threshold.getD 3
    let bm := match bar_mode with
              | some v => v
              | none => cfg.overlay_bar_mode.getD ("group")
    let chart_configs ← buildChartConfigs 0 charts
    let pa := _determine_axis_assignment chart_configs t
      (cfg.overlay_warn_scale_groups.getD true)
    let needs_secondary := pa.1.any (fun a => a == "right")
    let bar_chart_count := (chart_configs.filter
      (fun cc => cc.chart_data.type == "barchart")).length
    let thinWarns : List OverlayWarning :=
      if bm = "group" ∧ cfg.overlay_warn_thin_bars.getD true ∧
          1 < bar_chart_count ∧
          cfg.plot_bar_width.getD (4/5) / bar_chart_count < 3/20 then
        [OverlayWarning.thinBars
          (cfg.plot_bar_width.getD (4/5) / bar_chart_count) bar_chart_count]
      else []
    .ok { chart_configs := chart_configs, axis_assignments := pa.1,
          hasRightAxis := needs_secondary, bar_mode := bm, threshold := t,
          warnings := pa.2 ++ thinWarns }

/-- A custom grid position dictionary; a `none` field models a missing
required key. -/
structure LayoutSpec where
  row : Option ℤ := none
  col : Option ℤ := none
  rowspan : Option ℤ := none
  colspan : Option ℤ := none
  deriving Repr, DecidableEq

/-- `required_keys.issubset(spec.keys())` for the four required keys. -/
def layoutSpecComplete (s : LayoutSpec) : Bool :=
  s.row.isSome && s.col.isSome && s.rowspan.isSome && s.colspan.isSome

/-- One entry of the `charts` argument of `FigureGridLayout`. -/
structure GridEntry where
  figure : Option Figure := none
  layout_spec : Option LayoutSpec := none
  deriving Repr, DecidableEq

/-- The observable outcome of a successful grid-layout call: the number of
placed figures and the grid geometry.  Per-cell rendering is modelled at
the `_plot_chart_on_axis` level. -/
structure GridResult where
  n_figures : ℕ
  nrows : ℕ
  ncols : ℕ
  deriving Repr, DecidableEq

/-- The keys of the `CHART_PLOTTERS` dispatch table of the plot engine. -/
def CHART_PLOTTERS_keys : List String :=
  ["linechart", "barchart", "histogram", "heatmap", "scatterchart",
   "boxplot", "parallelcoords"]

/-- The per-figure metadata validation of `_figure_grid_layout_impl`:
every figure must carry metadata with a `type` and a `charts` entry, and
its type must be `"overlay"` or a known plotter type. -/
def checkGridFigures : ℕ → List Figure → Except String Unit
  | _, [] => .ok ()
  | idx, fig :: rest =>
    match fig._chart_metadata with
    | none =>
      .error ("Figure at index " ++ toString idx ++ " is missing chart metadata")
    | some md =>
      match md.type with
      | none =>
        .error ("Figure at index " ++ toString idx ++
          " has invalid metadata: missing type")
      | some ty =>
        match md.charts with
        | none =>
          .error ("Figure at index " ++ toString idx ++
            " has invalid metadata: missing charts")
        | some _ =>
          if ty == "overlay" || CHART_PLOTTERS_keys.contains ty then
            checkGridFigures (idx + 1) rest
          else .error ("Unknown chart type " ++ ty)

/-- Model of `_figure_grid_layout_impl(figures, title, layout_specs,
max_cols, ...)`: raises on an empty figure list, a layout-spec count
mismatch, an incomplete layout spec, a zero `max_cols` (Python division by
zero), or invalid figure metadata; otherwise returns the grid geometry
(custom grids sized by the maximal `row+rowspan`/`col+colspan`, uniform
grids by `ceil(n/max_cols)` rows and `min(max_cols, n)` columns). -/
def _figure_grid_layout_impl (figures : List Figure)
    (layout_specs : Option (List LayoutSpec)) (max_cols : ℕ) :
    Except String GridResult :=
  if figures.length = 0 then .error ("At least one figure is required")
  else
    match layout_specs with
    | some specs =>
      if specs.length ≠ figures.length then
        .error ("layout_specs length must match figures length")
      else if specs.any (fun s => !layoutSpecComplete s) then
        .error ("layout_specs missing required keys")
      else do
        checkGridFigures 0 figures
        let max_row := (specs.map (fun s => s.row.getD 0 + s.rowspan.getD 0)).foldl max 0
        let max_col := (specs.map (fun s => s.col.getD 0 + s.colspan.getD 0)).foldl max 0
        .ok { n_figures := figures.length, nrows := max_row.toNat,
              ncols := max_col.toNat }
    | none =>
      if max_cols = 0 then .error ("ZeroDivisionError")
      else do
        checkGridFigures 0 figures
        .ok { n_figures := figures.length,
              nrows := (figures.length + max_cols - 1) / max_cols,
              ncols := min max_cols figures.length }

/-- The validation loop of `FigureGridLayout`: every entry must have its
`"figure"` key, and a supplied `layout_spec` must contain all four
required keys.  Returns the figures and the per-entry optional specs. -/
def collectGridEntries : ℕ → List GridEntry →
    Except String (List Figure × List (Option LayoutSpec))
  | _, [] => .ok ([], [])
  | i, entry :: rest =>
    match entry.figure with
    | none => .error ("Chart at index " ++ toString i ++ " is missing figure key")
    | some fig => do
      let spec? ←
        match entry.layout_spec with
        | some s =>
          if layoutSpecComplete s then Except.ok (some s)
          else Except.error ("layout_spec at index " ++ toString i ++
            " is missing required keys")
        | none => Except.ok none
      let p ← collectGridEntries (i + 1) rest
      .ok (fig :: p.1, spec? :: p.2)

/-- Model of `FigureGridLayout(charts, ..., max_cols, ...)`: raises on an
empty chart list, a missing figure, an incomplete spec, or a mix of
entries with and without `layout_spec`; then delegates to
`_figure_grid_layout_impl` with either all specs or none. -/
def FigureGridLayout (charts : List GridEntry) (max_cols : ℕ) :
    Except String GridResult :=
  if charts.length = 0 then .error ("At least one chart is required")
  else do
    let p ← collectGridEntries 0 charts
    let has_custom := p.2.any Option.isSome
    if has_custom then
      if p.2.any Option.isNone then
        .error ("When using custom layout, all charts must have layout_spec")
      else
        _figure_grid_layout_impl p.1 (some (p.2.filterMap id)) max_cols
    else
      _figure_grid_layout_impl p.1 none max_cols

instance : Inhabited Chart := ⟨{}⟩

/-- The cumulative per-category sums of the `y` vectors of `charts`,
starting from `init`: the value of the running `bar_bottoms` vector of
stack mode after drawing `charts`. -/
def stackFrom (init : List ℚ) (charts : List Chart) : List ℚ :=
  charts.foldl (fun acc c => List.zipWith (fun u v => u + v) acc (c.y.getD [])) init

/-- The values a histogram chart contributes to the range extraction: its
per-bin counts (empty when the chart has no `x` samples). -/
def histogramContribution (n : ℕ) (c : Chart) : List ℚ :=
  match c.x with
  | none => []
  | some xs => ((npHistogramCounts xs n).getD []).map Nat.cast

/-- The spec scenario bar chart: values `[10, 20, 30]`. -/
def scenarioBarFigure : Figure :=
  ⟨some { type := some "barchart",
          charts := some [{ y := some [10, 20, 30],
                            label := some ["A", "B", "C"] }] }⟩

/-- The spec scenario line chart: values `[1000, 2000, 4000]`. -/
def scenarioLineFigure : Figure :=
  ⟨some { type := some "linechart",
          charts := some [{ x := some [0, 1, 2],
                            y := some [1000, 2000, 4000] }] }⟩

/-- The spec scenario second bar chart: values `[50, 60, 70]`. -/
def scenarioBarFigure2 : Figure :=
  ⟨some { type := some "barchart",
          charts := some [{ y := some [50, 60, 70],
                            label := some ["A", "B", "C"] }] }⟩

/-- `true` iff the call raised (`Except.error`). -/
def isError {α : Type} (r : Except String α) : Bool :=
  match r with
  | .error _ => true
  | .ok _ => false

/-- An `OverlayChart` entry on which validation must abort: the entry lacks
its `"figure"` key, the figure lacks its attached metadata, or the
metadata lacks its `type` or its chart list. -/
def entryFatal (e : ChartEntry) : Bool :=
  match e.figure with
  | none => true
  | some fig =>
    match fig._chart_metadata with
    | none => true
    | some md => md.type.isNone || md.charts.isNone

/-! ## Theorems -/

theorem chartYValues_linechart (n : ℕ) (c : Chart) :
    chartYValues "linechart" n c = some (c.y.getD []) := by
  rw [chartYValues, if_pos (Or.inl rfl)]

theorem chartYValues_barchart (n : ℕ) (c : Chart) :
    chartYValues "barchart" n c = some (c.y.getD []) := by
  rw [chartYValues, if_pos (Or.inr (Or.inl rfl))]

theorem chartYValues_scatterchart (n : ℕ) (c : Chart) :
    chartYValues "scatterchart" n c = some (c.y.getD []) := by
  rw [chartYValues, if_pos (Or.inr (Or.inr rfl))]

theorem chartYValues_histogram (n : ℕ) (c : Chart) :
    chartYValues "histogram" n c =
      match c.x with
      | none => some []
      | some xs => (npHistogramCounts xs n).map (fun cs => cs.map Nat.cast) := by
  rw [chartYValues, if_neg (by decide), if_pos rfl]

/-- Unfolding characterization of the predicate. -/
theorem scale_compatible_iff (r1 r2 : DataRange) (t : ℚ) :
    _scale_compatible r1 r2 t = true ↔
      (r1.2 - r1.1 = 0 ∨ r2.2 - r2.1 = 0 ∨
        max (r1.2 - r1.1) (r2.2 - r2.1) / min (r1.2 - r1.1) (r2.2 - r2.1) < t) := by
  by_cases h : r1.2 - r1.1 = 0 ∨ r2.2 - r2.1 = 0
  · simp [_scale_compatible, h]
    tauto
  · push_neg at h
    simp [_scale_compatible, h.1, h.2]

/-- The predicate is symmetric in its two ranges. -/
theorem scale_compatible_symm (r1 r2 : DataRange) (t : ℚ) :
    _scale_compatible r1 r2 t = _scale_compatible r2 r1 t := by
  unfold _scale_compatible
  by_cases h1 : r1.2 - r1.1 = 0 <;> by_cases h2 : r2.2 - r2.1 = 0 <;>
    simp [h1, h2, max_comm, min_comm]

/-- A degenerate (zero-span) range is compatible with every range. -/
theorem scale_compatible_of_degenerate (r1 r2 : DataRange) (t : ℚ)
    (h : r1.2 - r1.1 = 0) : _scale_compatible r1 r2 t = true := by
  simp [_scale_compatible, h]

/-- For thresholds above 1 the predicate is reflexive. -/
theorem scale_compatible_refl (r : DataRange) (t : ℚ) (ht : 1 < t) :
    _scale_compatible r r t = true := by
  by_cases h : r.2 - r.1 = 0
  · simp [_scale_compatible, h]
  · simp [_scale_compatible, h, div_self h, ht]

/-- C4 (amended): `_scale_compatible` returns true iff either span is zero
or the span ratio `max/min` is below the threshold; the predicate is
symmetric for every threshold, reflexive for every threshold above 1 (the
amendment: reflexivity fails for thresholds at or below 1, see the
counterexample), and a degenerate range is compatible with any range. -/
theorem C4_compatibility_predicate :
    (∀ r1 r2 : DataRange, ∀ t : ℚ, _scale_compatible r1 r2 t = true ↔
      (r1.2 - r1.1 = 0 ∨ r2.2 - r2.1 = 0 ∨
        max (r1.2 - r1.1) (r2.2 - r2.1) / min (r1.2 - r1.1) (r2.2 - r2.1) < t)) ∧
    (∀ r1 r2 : DataRange, ∀ t : ℚ,
      _scale_compatible r1 r2 t = _scale_compatible r2 r1 t) ∧
    (∀ r : DataRange, ∀ t : ℚ, 1 < t → _scale_compatible r r t = true) ∧
    (∀ r1 r2 : DataRange, ∀ t : ℚ, r1.2 - r1.1 = 0 →
      _scale_compatible r1 r2 t = true) :=
  ⟨scale_compatible_iff, scale_compatible_symm,
    fun r t ht => scale_compatible_refl r t ht,
    fun r1 r2 t h => scale_compatible_of_degenerate r1 r2 t h⟩

/-- C4 witness: the amended reflexivity and degeneracy clauses at concrete
inputs. -/
theorem C4_compatibility_predicate_witness :
    _scale_compatible (2, 5) (2, 5) 3 = true ∧
      _scale_compatible (4, 4) (0, 100) 3 = true :=
  ⟨C4_compatibility_predicate.2.2.1 (2, 5) 3 (by norm_num),
   C4_compatibility_predicate.2.2.2 (4, 4) (0, 100) 3 (by norm_num)⟩

/-- C4 counterexample: the claim asserts reflexivity for *every* threshold,
but at threshold 1 the unit-span range `(0, 1)` is not compatible with
itself (the span ratio is `1` and `1 < 1` fails). -/
theorem C4_reflexivity_counterexample :
    _scale_compatible (0, 1) (0, 1) 1 = false := by
  norm_num [_scale_compatible]

/-- C6: for every call to `_plot_chart_on_axis` — including calls whose
metadata carries a `config_snapshot` — the global configuration state
(`config.config` and `config.theme`) after the call equals its value
before the call, both when the call returns normally (`isSome`) and when
the underlying rendering raises an exception that propagates (`none`);
moreover, when a snapshot is present the body renders under the
temporarily installed snapshot configuration. -/
theorem C6_config_swap_restore :
    ∀ (g : GlobalConfig) (cd : ChartData) (z : Option ℤ) (l : Option String)
      (b : Option String),
      ((_plot_chart_on_axis g cd z l b).1.isSome →
        (_plot_chart_on_axis g cd z l b).2 = g) ∧
      ((_plot_chart_on_axis g cd z l b).1 = none →
        (_plot_chart_on_axis g cd z l b).2 = g) ∧
      (∀ snap, cd.metadata.config_snapshot = some snap →
        (_plot_chart_on_axis g cd z l b).1 =
          renderChartCalls
            { config := snap, theme := cd.metadata.theme.getD g.theme }
            cd z l b) := by
  intro g cd z l b
  refine ⟨fun _ => rfl, fun _ => rfl, fun snap hs => ?_⟩
  simp only [_plot_chart_on_axis, hs]
  cases h : cd.metadata.theme <;> simp [Option.getD, h]

/-- C6 witness: a normally returning call, a call whose rendering raises
(stacked bars over an empty chart list), and a call with an installed
snapshot, all restoring the configuration state. -/
theorem C6_config_swap_restore_witness :
    ((_plot_chart_on_axis { config := {}, theme := "default" }
        { type := "linechart", charts := [], metadata := {} }
        none none none).1.isSome = true ∧
      (_plot_chart_on_axis { config := {}, theme := "default" }
        { type := "linechart", charts := [], metadata := {} }
        none none none).2 = { config := {}, theme := "default" }) ∧
    ((_plot_chart_on_axis { config := {}, theme := "default" }
        { type := "barchart", charts := [], metadata := {} }
        none none (some "stack")).1 = none ∧
      (_plot_chart_on_axis { config := {}, theme := "default" }
        { type := "barchart", charts := [], metadata := {} }
        none none (some "stack")).2 = { config := {}, theme := "default" }) ∧
    (_plot_chart_on_axis { config := {}, theme := "default" }
        { type := "linechart", charts := [],
          metadata := { config_snapshot := some { overlay_bar_mode := some "stack" },
                        theme := some "greyscale" } }
        none none none).1 =
      renderChartCalls
        { config := { overlay_bar_mode := some "stack" }, theme := "greyscale" }
        { type := "linechart", charts := [],
          metadata := { config_snapshot := some { overlay_bar_mode := some "stack" },
                        theme := some "greyscale" } }
        none none none :=
  ⟨⟨rfl,
    (C6_config_swap_restore { config := {}, theme := "default" }
      { type := "linechart", charts := [], metadata := {} }
      none none none).1 (by rfl)⟩,
   ⟨rfl,
    (C6_config_swap_restore { config := {}, theme := "default" }
      { type := "barchart", charts := [], metadata := {} }
      none none (some "stack")).2.1 rfl⟩,
   (C6_config_swap_restore { config := {}, theme := "default" }
      { type := "linechart", charts := [],
        metadata := { config_snapshot := some { overlay_bar_mode := some "stack" },
                      theme := some "greyscale" } }
      none none none).2.2 { overlay_bar_mode := some "stack" } rfl⟩

/-- Any fatal entry makes the `OverlayChart` validation loop raise. -/
theorem buildChartConfigs_isError (i : ℕ) (charts : List ChartEntry)
    (h : ∃ e ∈ charts, entryFatal e = true) :
    isError (buildChartConfigs i charts) = true := by
  induction charts generalizing i with
  | nil => simp at h
  | cons e rest ih =>
    rcases h with ⟨e', he', hf⟩
    rcases List.mem_cons.mp he' with rfl | hmem
    · cases hfig : e'.figure with
      | none => simp [buildChartConfigs, hfig, isError]
      | some fig =>
        simp only [entryFatal, hfig] at hf
        cases hmd : fig._chart_metadata with
        | none =>
          simp [buildChartConfigs, hfig, _extract_chart_data, hmd, isError,
            bind, Except.bind]
        | some md =>
          simp only [hmd] at hf
          simp only [Bool.or_eq_true, Option.isNone_iff_eq_none] at hf
          rcases hf with hty | hch
          · simp [buildChartConfigs, hfig, _extract_chart_data, hmd, hty,
              isError, bind, Except.bind]
          · cases hty2 : md.type <;>
              simp [buildChartConfigs, hfig, _extract_chart_data, hmd, hty2,
                hch, isError, bind, Except.bind]
    · cases hfig : e.figure with
      | none => simp [buildChartConfigs, hfig, isError]
      | some fig =>
        have htail := ih (i + 1) ⟨e', hmem, hf⟩
        cases hex : _extract_chart_data fig with
        | error m =>
          simp [buildChartConfigs, hfig, hex, isError, bind, Except.bind]
        | ok cd =>
          cases hr : _get_data_range cd with
          | none =>
            simp [buildChartConfigs, hfig, hex, hr, isError, bind, Except.bind]
          | some r =>
            cases htc : buildChartConfigs (i + 1) rest with
            | error m =>
              simp [buildChartConfigs, hfig, hex, hr, htc, isError, bind,
                Except.bind]
            | ok cfgs =>
              rw [htc] at htail
              simp [isError] at htail

/-- A successful grid validation returns exactly the per-entry specs. -/
theorem collectGridEntries_ok_specs (i : ℕ) (charts : List GridEntry)
    (p : List Figure × List (Option LayoutSpec))
    (h : collectGridEntries i charts = .ok p) :
    p.2 = charts.map (fun e => e.layout_spec) := by
  induction charts generalizing i p with
  | nil =>
    simp [collectGridEntries] at h
    simp [← h]
  | cons e rest ih =>
    cases hfig : e.figure with
    | none => simp [collectGridEntries, hfig] at h
    | some fig =>
      cases hspec : e.layout_spec with
      | none =>
        cases htc : collectGridEntries (i + 1) rest with
        | error m =>
          simp [collectGridEntries, hfig, hspec, htc, bind, Except.bind] at h
        | ok q =>
          simp [collectGridEntries, hfig, hspec, htc, bind, Except.bind] at h
          simp [← h, hspec, ih (i + 1) q htc]
      | some s =>
        by_cases hc : layoutSpecComplete s = true
        · cases htc : collectGridEntries (i + 1) rest with
          | error m =>
            simp [collectGridEntries, hfig, hspec, hc, htc, bind, Except.bind] at h
          | ok q =>
            simp [collectGridEntries, hfig, hspec, hc, htc, bind, Except.bind] at h
            simp [← h, hspec, ih (i + 1) q htc]
        · simp [collectGridEntries, hfig, hspec, hc, bind, Except.bind] at h

/-- An incomplete supplied layout spec makes the grid validation raise. -/
theorem collectGridEntries_isError_of_incomplete (i : ℕ) (charts : List GridEntry)
    (h : ∃ e ∈ charts, ∃ s, e.layout_spec = some s ∧ layoutSpecComplete s = false) :
    isError (collectGridEntries i charts) = true := by
  induction charts generalizing i with
  | nil => simp at h
  | cons e rest ih =>
    rcases h with ⟨e', he', s, hs, hc⟩
    rcases List.mem_cons.mp he' with rfl | hmem
    · cases hfig : e'.figure with
      | none => simp [collectGridEntries, hfig, isError]
      | some fig =>
        simp [collectGridEntries, hfig, hs, hc, isError, bind, Except.bind]
    · cases hfig : e.figure with
      | none => simp [collectGridEntries, hfig, isError]
      | some fig =>
        have htail := ih (i + 1) ⟨e', hmem, s, hs, hc⟩
        cases hspec : e.layout_spec with
        | none =>
          cases htc : collectGridEntries (i + 1) rest with
          | error m =>
            simp [collectGridEntries, hfig, hspec, htc, isError, bind, Except.bind]
          | ok q =>
            rw [htc] at htail
            simp [isError] at htail
        | some s' =>
          by_cases hc' : layoutSpecComplete s' = true
          · cases htc : collectGridEntries (i + 1) rest with
            | error m =>
              simp [collectGridEntries, hfig, hspec, hc', htc, isError, bind,
                Except.bind]
            | ok q =>
              rw [htc] at htail
              simp [isError] at htail
          · simp [collectGridEntries, hfig, hspec, hc', isError, bind,
              Except.bind]

/-- C7: `OverlayChart` raises and returns no figure on an empty chart
list, an entry lacking its `"figure"` key, a figure lacking its metadata,
or metadata lacking `type` or `charts`; `FigureGridLayout` raises on an
empty chart list, on `layout_spec` present on some but not all entries,
and on a supplied `layout_spec` missing one of its four required keys.  In
every such case the result is an `Except.error`, so no partial figure is
produced. -/
theorem C7_fatal_error_behavior :
    (∀ cfg t bm, OverlayChart [] cfg t bm =
      .error ("At least one chart is required")) ∧
    (∀ charts cfg t bm, (∃ e ∈ charts, entryFatal e = true) →
      isError (OverlayChart charts cfg t bm) = true) ∧
    (∀ mc, FigureGridLayout [] mc = .error ("At least one chart is required")) ∧
    (∀ charts mc, (∃ e ∈ charts, e.layout_spec.isSome = true) →
      (∃ e ∈ charts, e.layout_spec = none) →
      isError (FigureGridLayout charts mc) = true) ∧
    (∀ charts mc, (∃ e ∈ charts, ∃ s, e.layout_spec = some s ∧
        layoutSpecComplete s = false) →
      isError (FigureGridLayout charts mc) = true) := by
  refine ⟨fun cfg t bm => rfl, ?_, fun mc => rfl, ?_, ?_⟩
  · intro charts cfg t bm h
    have hne : charts.length ≠ 0 := by
      rcases h with ⟨e, he, _⟩
      intro h0
      rw [List.length_eq_zero] at h0
      subst h0
      simp at he
    have herr := buildChartConfigs_isError 0 charts h
    cases htc : buildChartConfigs 0 charts with
    | error m =>
      simp [OverlayChart, hne, htc, isError, bind, Except.bind]
    | ok cfgs =>
      rw [htc] at herr
      simp [isError] at herr
  · intro charts mc hsome hnone
    have hne : charts.length ≠ 0 := by
      rcases hsome with ⟨e, he, _⟩
      intro h0
      rw [List.length_eq_zero] at h0
      subst h0
      simp at he
    cases htc : collectGridEntries 0 charts with
    | error m =>
      simp [FigureGridLayout, hne, htc, isError, bind, Except.bind]
    | ok p =>
      have hspecs := collectGridEntries_ok_specs 0 charts p htc
      have hcustom : p.2.any Option.isSome = true := by
        rcases hsome with ⟨e, he, hs⟩
        rw [hspecs, List.any_eq_true]
        exact ⟨e.layout_spec, List.mem_map_of_mem _ he, hs⟩
      have hmiss : p.2.any Option.isNone = true := by
        rcases hnone with ⟨e, he, hs⟩
        rw [hspecs, List.any_eq_true]
        refine ⟨e.layout_spec, List.mem_map_of_mem _ he, ?_⟩
        simp [hs]
      simp [FigureGridLayout, hne, htc, hcustom, hmiss, isError, bind,
        Except.bind]
  · intro charts mc h
    have hne : charts.length ≠ 0 := by
      rcases h with ⟨e, he, _⟩
      intro h0
      rw [List.length_eq_zero] at h0
      subst h0
      simp at he
    have herr := collectGridEntries_isError_of_incomplete 0 charts h
    cases htc : collectGridEntries 0 charts with
    | error m =>
      simp [FigureGridLayout, hne, htc, isError, bind, Except.bind]
    | ok p =>
      rw [htc] at herr
      simp [isError] at herr

/-- C10: the all-auto clustering policy is gated on the configuration key
`overlay_warn_scale_groups`; the key is absent from the default theme (it
is not among the theme keys and the modelled default-theme restriction
leaves it unset), so `config.get("overlay_warn_scale_groups", True)`
defaults to `True`; when the flag is `False` the assigner runs the
sequential left-compatibility policy even though every binding is
`"auto"`; and on the three-chart input with spans 20/3000/3000 at
threshold 3 the two policies produce different assignments
(`["right","left","left"]` from clustering versus
`["left","right","right"]` sequentially). -/
theorem C10_warn_scale_groups_gate :
    (DEFAULT_THEME_overlay.overlay_warn_scale_groups = none ∧
      DEFAULT_THEME_keys.contains ("overlay_warn_scale_groups") = false ∧
      DEFAULT_THEME_overlay.overlay_warn_scale_groups.getD true = true) ∧
    (∀ (cfgs : List ChartConfig) (t : ℚ),
      cfgs.all (fun c => c.y_axis == "auto") = true →
      (_determine_axis_assignment cfgs t false).1 =
        sequentialAssignments cfgs t) ∧
    ((_determine_axis_assignment
        [{ data_range := (0, 20) }, { data_range := (0, 3000) },
         { data_range := (0, 3000) }] 3 true).1 = ["right", "left", "left"] ∧
      (_determine_axis_assignment
        [{ data_range := (0, 20) }, { data_range := (0, 3000) },
         { data_range := (0, 3000) }] 3 false).1 = ["left", "right", "right"]) := by
  refine ⟨⟨rfl, by decide, rfl⟩, ?_, ?_, ?_⟩
  · intro cfgs t hauto
    by_cases hn : cfgs.length = 0
    · rw [List.length_eq_zero] at hn
      subst hn
      simp [_determine_axis_assignment, sequentialAssignments, seqGo]
    · simp [_determine_axis_assignment, hn, hauto]
  · norm_num [_determine_axis_assignment, _cluster_by_scale_compatibility,
      buildGroups, extendGroup, rangeAt, _scale_compatible, sortByLenDesc,
      insertByLenDesc, setAxisRight, List.range, List.range.loop, List.set,
      List.replicate]
  · norm_num [_determine_axis_assignment, sequentialAssignments, seqGo,
      seqStep, _scale_compatible, List.zip, List.zipWith, List.any]
    decide

/-- C10 witness: the sequential-fallback clause applied to a concrete
all-auto chart list. -/
theorem C10_warn_scale_groups_gate_witness :
    ([{ data_range := (0, 20) }, { data_range := (0, 3000) },
      { data_range := (0, 3000) }] : List ChartConfig).all
        (fun c => c.y_axis == "auto") = true ∧
    (_determine_axis_assignment
      [{ data_range := (0, 20) }, { data_range := (0, 3000) },
       { data_range := (0, 3000) }] 3 false).1 =
      sequentialAssignments
        [{ data_range := (0, 20) }, { data_range := (0, 3000) },
         { data_range := (0, 3000) }] 3 :=
  ⟨by decide,
   C10_warn_scale_groups_gate.2.1
     [{ data_range := (0, 20) }, { data_range := (0, 3000) },
      { data_range := (0, 3000) }] 3 (by decide)⟩

/-- C7 witness: an entry without a figure, a mixed custom/automatic grid
layout, and an incomplete layout spec, each aborting the call. -/
theorem C7_fatal_error_behavior_witness :
    isError (OverlayChart [{}] {} none none) = true ∧
    isError (FigureGridLayout
      [{ figure := some ⟨some { type := some "linechart", charts := some [] }⟩,
         layout_spec := some { row := some 0, col := some 0,
                               rowspan := some 1, colspan := some 1 } },
       { figure := some ⟨some { type := some "linechart", charts := some [] }⟩ }]
      4) = true ∧
    isError (FigureGridLayout
      [{ figure := some ⟨some { type := some "linechart", charts := some [] }⟩,
         layout_spec := some { row := some 0 } }] 4) = true :=
  ⟨C7_fatal_error_behavior.2.1 [{}] {} none none ⟨{}, by simp, rfl⟩,
   C7_fatal_error_behavior.2.2.2.1 _ 4
     ⟨{ figure := some ⟨some { type := some "linechart", charts := some [] }⟩,
        layout_spec := some { row := some 0, col := some 0,
                              rowspan := some 1, colspan := some 1 } },
      by simp, rfl⟩
     ⟨{ figure := some ⟨some { type := some "linechart", charts := some [] }⟩ },
      by simp, rfl⟩,
   C7_fatal_error_behavior.2.2.2.2 _ 4
     ⟨{ figure := some ⟨some { type := some "linechart", charts := some [] }⟩,
        layout_spec := some { row := some 0 } },
      by simp, { row := some 0 }, rfl, rfl⟩⟩

/-- The sequential loop appends one assignment per chart. -/
theorem seqGo_length (t : ℚ) :
    ∀ (rest done : List ChartConfig) (asn : List String),
      (seqGo t done asn rest).length = asn.length + rest.length := by
  intro rest
  induction rest with
  | nil => intro done asn; simp [seqGo]
  | cons c rest ih =>
    intro done asn
    simp [seqGo, ih]
    omega

/-- Assignments already made are never revisited by the loop. -/
theorem seqGo_prefix (t : ℚ) :
    ∀ (rest done : List ChartConfig) (asn : List String),
      asn <+: seqGo t done asn rest := by
  intro rest
  induction rest with
  | nil => intro done asn; simp [seqGo]
  | cons c rest ih =>
    intro done asn
    exact (List.prefix_append asn [seqStep t done asn c]).trans
      (ih (done ++ [c]) (asn ++ [seqStep t done asn c]))

/-- Reading inside a prefix. -/
theorem get?_of_prefix {l1 l2 : List String} (h : l1 <+: l2) {i : ℕ}
    (hi : i < l1.length) : l2.get? i = l1.get? i := by
  rcases h with ⟨tail, rfl⟩
  exact List.get?_append hi

/-- A prefix is recovered by `take`. -/
theorem take_of_prefix {l1 l2 : List String} (h : l1 <+: l2) :
    l2.take l1.length = l1 :=
  (List.prefix_iff_eq_take.mp h).symm

/-- Pointwise recurrence of the sequential loop: the assignment appended
for the chart at offset `i` is `seqStep` applied to the charts and
assignments that precede it. -/
theorem seqGo_get (t : ℚ) :
    ∀ (rest done : List ChartConfig) (asn : List String),
      asn.length = done.length →
      ∀ i, i < rest.length →
        (seqGo t done asn rest).get? (asn.length + i) =
          some (seqStep t (done ++ rest.take i)
            ((seqGo t done asn rest).take (asn.length + i))
            (rest.getD i default)) := by
  intro rest
  induction rest with
  | nil => intro done asn hl i hi; simp at hi
  | cons c rest ih =>
    intro done asn hl i hi
    cases i with
    | zero =>
      have hpre := seqGo_prefix t rest (done ++ [c]) (asn ++ [seqStep t done asn c])
      have h1 : (seqGo t done asn (c :: rest)).get? (asn.length + 0) =
          some (seqStep t done asn c) := by
        rw [seqGo]
        rw [ get?_of_prefix hpre (by simp)]
        simp [List.get?_concat_length]
      have h2 : (seqGo t done asn (c :: rest)).take (asn.length + 0) = asn := by
        have : asn <+: seqGo t done asn (c :: rest) := seqGo_prefix t _ done asn
        simpa using take_of_prefix this
      rw [h1, h2]
      simp
    | succ i =>
      have hl' : (asn ++ [seqStep t done asn c]).length = (done ++ [c]).length := by
        simp [hl]
      have hi' : i < rest.length := by simpa using hi
      rw [seqGo]
      have hidx : asn.length + (i + 1) =
          (asn ++ [seqStep t done asn c]).length + i := by
        simp
        omega
      rw [hidx, ih (done ++ [c]) (asn ++ [seqStep t done asn c]) hl' i hi']
      simp [List.append_assoc, List.take_succ_cons, List.getD_cons_succ]

/-- One assignment per chart. -/
theorem sequentialAssignments_length (cfgs : List ChartConfig) (t : ℚ) :
    (sequentialAssignments cfgs t).length = cfgs.length := by
  simpa [sequentialAssignments] using seqGo_length t cfgs [] []

/-- The sequential assignment at index `i` is `seqStep` of the first `i`
charts and assignments. -/
theorem sequentialAssignments_get (cfgs : List ChartConfig) (t : ℚ)
    (i : ℕ) (hi : i < cfgs.length) :
    (sequentialAssignments cfgs t).get? i =
      some (seqStep t (cfgs.take i) ((sequentialAssignments cfgs t).take i)
        (cfgs.getD i default)) := by
  have h := seqGo_get t cfgs [] [] rfl i hi
  simpa [sequentialAssignments] using h

/-- C2: when at least one binding is explicit, `_determine_axis_assignment`
runs the sequential policy (for either state of the warn flag): an
explicit binding is honored verbatim; an `auto` binding at position 0
receives `"left"`; an `auto` binding at position `i > 0` receives
`"left"` iff its range is scale-compatible with the range of at least one
earlier chart already assigned to the left axis, and `"right"` otherwise —
compatibility is never tested against right-axis charts (only indices `j`
with assignment `"left"` occur in the characterization). -/
theorem C2_explicit_mixed_policy (cfgs : List ChartConfig) (t : ℚ) (gate : Bool)
    (hexp : ∃ c ∈ cfgs, c.y_axis = "left" ∨ c.y_axis = "right") :
    (_determine_axis_assignment cfgs t gate).1 = sequentialAssignments cfgs t ∧
    (sequentialAssignments cfgs t).length = cfgs.length ∧
    (∀ i, i < cfgs.length →
      (((cfgs.getD i default).y_axis = "left" ∨
          (cfgs.getD i default).y_axis = "right") →
        (sequentialAssignments cfgs t).get? i =
          some (cfgs.getD i default).y_axis) ∧
      ((cfgs.getD i default).y_axis = "auto" →
        (i = 0 → (sequentialAssignments cfgs t).get? i = some "left") ∧
        (0 < i →
          ((sequentialAssignments cfgs t).get? i = some "left" ↔
            ∃ j, j < i ∧ (sequentialAssignments cfgs t).get? j = some "left" ∧
              _scale_compatible (rangeOf cfgs i) (rangeOf cfgs j) t = true) ∧
          ((sequentialAssignments cfgs t).get? i = some "right" ↔
            ¬ ∃ j, j < i ∧ (sequentialAssignments cfgs t).get? j = some "left" ∧
              _scale_compatible (rangeOf cfgs i) (rangeOf cfgs j) t = true)))) := by
  have hlen : (sequentialAssignments cfgs t).length = cfgs.length :=
    sequentialAssignments_length cfgs t
  have hne : cfgs.length ≠ 0 := by
    rcases hexp with ⟨c, hc, _⟩
    intro h0
    rw [List.length_eq_zero] at h0
    subst h0
    simp at hc
  have hnotall : cfgs.all (fun c => c.y_axis == "auto") = false := by
    rcases hexp with ⟨c, hc, hcy⟩
    rw [List.all_eq_false]
    exact ⟨c, hc, by rcases hcy with h | h <;> simp [h]⟩
  refine ⟨by simp [_determine_axis_assignment, hne, hnotall], hlen, ?_⟩
  intro i hi
  have hrec := sequentialAssignments_get cfgs t i hi
  constructor
  · intro hex
    rw [hrec]
    unfold seqStep
    rw [if_pos hex]
  · intro hauto
    constructor
    · intro h0
      subst h0
      rw [hrec]
      unfold seqStep
      rw [if_neg (by rw [hauto]; decide), if_pos (by simp)]
    · intro hpos
      have hlen_take : ((sequentialAssignments cfgs t).take i).length = i := by
        rw [List.length_take]
        omega
      have hcfgs_take : (cfgs.take i).length = i := by
        rw [List.length_take]
        omega
      have hany :
          (((sequentialAssignments cfgs t).take i).zip (cfgs.take i)).any
            (fun p => p.1 == "left" &&
              _scale_compatible (cfgs.getD i default).data_range
                p.2.data_range t) = true ↔
          (∃ j, j < i ∧ (sequentialAssignments cfgs t).get? j = some "left" ∧
            _scale_compatible (rangeOf cfgs i) (rangeOf cfgs j) t = true) := by
        rw [List.any_eq_true]
        constructor
        · rintro ⟨p, hmem, hp⟩
          obtain ⟨j, hj⟩ := List.mem_iff_get?.mp hmem
          rw [List.get?_zip_eq_some] at hj
          obtain ⟨hj1, hj2⟩ := hj
          have hjlt : j < i := by
            obtain ⟨hlt, _⟩ := List.get?_eq_some.mp hj1
            rw [hlen_take] at hlt
            exact hlt
          have hjc : j < cfgs.length := by omega
          have hs1 : (sequentialAssignments cfgs t).get? j = some p.1 := by
            rw [← List.get?_take hjlt]
            exact hj1
          have hs2 : cfgs.get? j = some p.2 := by
            rw [← List.get?_take hjlt]
            exact hj2
          simp only [Bool.and_eq_true, beq_iff_eq] at hp
          have hcd : cfgs.getD j default = p.2 := by
            rw [List.getD_eq_getElem?_getD, ← List.get?_eq_getElem?, hs2]
            rfl
          refine ⟨j, hjlt, ?_, ?_⟩
          · rw [hs1, hp.1]
          · rw [rangeOf, rangeOf, hcd]
            exact hp.2
        · rintro ⟨j, hjlt, hleft, hcompat⟩
          have hjc : j < cfgs.length := by omega
          have hg : cfgs.getD j default = cfgs[j] := by
            rw [List.getD_eq_getElem?_getD, List.getElem?_eq_getElem hjc]
            rfl
          refine ⟨("left", cfgs.getD j default), ?_, ?_⟩
          · rw [List.mem_iff_get?]
            refine ⟨j, ?_⟩
            rw [List.get?_zip_eq_some]
            constructor
            · rw [List.get?_take hjlt]
              exact hleft
            · rw [List.get?_take hjlt, List.get?_eq_getElem?,
                List.getElem?_eq_getElem hjc, hg]
          · simp only [Bool.and_eq_true, beq_iff_eq]
            constructor
            · simp
            · rw [rangeOf, rangeOf] at hcompat
              exact hcompat
      have hstep : seqStep t (cfgs.take i)
          ((sequentialAssignments cfgs t).take i) (cfgs.getD i default) =
          (if (((sequentialAssignments cfgs t).take i).zip (cfgs.take i)).any
            (fun p => p.1 == "left" &&
              _scale_compatible (cfgs.getD i default).data_range
                p.2.data_range t) = true then "left" else "right") := by
        unfold seqStep
        rw [if_neg (by rw [hauto]; decide), if_neg (by omega)]
      rw [hrec, hstep]
      by_cases hz : (((sequentialAssignments cfgs t).take i).zip
          (cfgs.take i)).any
            (fun p => p.1 == "left" &&
              _scale_compatible (cfgs.getD i default).data_range
                p.2.data_range t) = true
      · rw [if_pos hz]
        rw [hany] at hz
        refine ⟨⟨fun _ => hz, fun _ => rfl⟩, ⟨fun h => by simp at h,
          fun h => absurd hz h⟩⟩
      · rw [if_neg hz]
        rw [hany] at hz
        refine ⟨⟨fun h => by simp at h, fun h => absurd h hz⟩,
          ⟨fun _ => hz, fun _ => rfl⟩⟩

/-- C2 witness: an explicit right binding followed by an auto chart with
no left predecessor; the explicit binding is honored and the auto chart
goes right. -/
theorem C2_explicit_mixed_policy_witness :
    (∃ c ∈ ([{ y_axis := "right", data_range := (0, 5) },
             { data_range := (0, 10) }] : List ChartConfig),
      c.y_axis = "left" ∨ c.y_axis = "right") ∧
    (sequentialAssignments
      [{ y_axis := "right", data_range := (0, 5) },
       { data_range := (0, 10) }] 3).get? 0 = some "right" ∧
    (sequentialAssignments
      [{ y_axis := "right", data_range := (0, 5) },
       { data_range := (0, 10) }] 3).get? 1 = some "right" := by
  have hexp : ∃ c ∈ ([{ y_axis := "right", data_range := (0, 5) },
      { data_range := (0, 10) }] : List ChartConfig),
      c.y_axis = "left" ∨ c.y_axis = "right" := by
    refine ⟨{ y_axis := "right", data_range := (0, 5) }, by simp, Or.inr rfl⟩
  have h := C2_explicit_mixed_policy
    [{ y_axis := "right", data_range := (0, 5) }, { data_range := (0, 10) }]
    3 true hexp
  have h0 : (sequentialAssignments
      [{ y_axis := "right", data_range := (0, 5) },
       { data_range := (0, 10) }] 3).get? 0 = some "right" :=
    (h.2.2 0 (by norm_num)).1 (Or.inr rfl)
  refine ⟨hexp, h0, ?_⟩
  refine ((h.2.2 1 (by norm_num)).2 rfl).2 (by norm_num) |>.2.mpr ?_
  rintro ⟨j, hj, hleft, _⟩
  have hj0 : j = 0 := by omega
  subst hj0
  rw [h0] at hleft
  simp at hleft

/-- Reduction of the bar loop on a present chart outside stack mode. -/
theorem plotBarGo_cons_nonstack (bm : String) (w : ℚ) (sy hor : Bool)
    (z : ℤ) (lbl : Option String) (a : Option ℚ) (K idx : ℕ)
    (bb : Option (List ℚ)) (c : Chart) (rest : List Chart)
    (y : List ℚ) (ls : List String)
    (hy : c.y = some y) (hl : c.label = some ls) (hbm : ¬ bm = "stack") :
    plotBarGo bm w sy hor z lbl a K idx bb (c :: rest) =
      (plotBarGo bm w sy hor z lbl a K (idx + 1) bb rest).map
        (fun calls =>
          { xs := (List.range ls.length).map
              (fun m => (m : ℚ) + (if bm = "group" then (idx : ℚ) * w else 0)),
            ys := y, width := w,
            bottom := none,
            yerr := if sy && c.yerr.isSome && (!(bm == "stack") || idx == K - 1)
              then c.yerr else none,
            label := resolveLabel lbl c, alpha := a, zorder := z,
            horizontal := hor } :: calls) := by
  rw [plotBarGo, hy, hl]
  simp only [if_neg hbm, Option.some_bind]

/-- Reduction of the bar loop on a present chart in stack mode. -/
theorem plotBarGo_cons_stack (w : ℚ) (sy hor : Bool)
    (z : ℤ) (lbl : Option String) (a : Option ℚ) (K idx : ℕ)
    (b : List ℚ) (c : Chart) (rest : List Chart)
    (y : List ℚ) (ls : List String)
    (hy : c.y = some y) (hl : c.label = some ls) :
    plotBarGo "stack" w sy hor z lbl a K idx (some b) (c :: rest) =
      (npAddVec b y).bind (fun nb =>
        (plotBarGo "stack" w sy hor z lbl a K (idx + 1) (some nb) rest).map
          (fun calls =>
            { xs := (List.range ls.length).map (fun m => (m : ℚ) + 0),
              ys := y, width := w,
              bottom := some b,
              yerr := if sy && c.yerr.isSome && (idx == K - 1)
                then c.yerr else none,
              label := resolveLabel lbl c, alpha := a, zorder := z,
              horizontal := hor } :: calls)) := by
  rw [plotBarGo, hy, hl]
  simp only [if_pos rfl, if_neg (by decide : ¬ ("stack" = "group")),
    beq_self_eq_true, Bool.not_true, Bool.false_or, Option.elim]
  cases npAddVec b y with
  | none => rfl
  | some nb => rfl

/-- A chart with missing data is skipped but consumes its index. -/
theorem plotBarGo_cons_skip (bm : String) (w : ℚ) (sy hor : Bool)
    (z : ℤ) (lbl : Option String) (a : Option ℚ) (K idx : ℕ)
    (bb : Option (List ℚ)) (c : Chart) (rest : List Chart)
    (h : c.y = none ∨ c.label = none) :
    plotBarGo bm w sy hor z lbl a K idx bb (c :: rest) =
      plotBarGo bm w sy hor z lbl a K (idx + 1) bb rest := by
  rcases h with h | h
  · rw [plotBarGo, h]
  · rw [plotBarGo, h]
    cases c.y <;> rfl

/-- In group mode with all data present, every chart yields one call of
width `w`, with no bottom, positioned with offset `(idx + k) * w`. -/
theorem plotBarGo_group_spec (w : ℚ) (sy hor : Bool) (z : ℤ)
    (lbl : Option String) (a : Option ℚ) (K : ℕ) :
    ∀ (charts : List Chart) (idx : ℕ) (bb : Option (List ℚ)),
      (∀ c ∈ charts, c.y.isSome ∧ c.label.isSome) →
      ∃ calls, plotBarGo "group" w sy hor z lbl a K idx bb charts =
          some calls ∧
        calls.length = charts.length ∧
        ∀ k, ∀ hk : k < calls.length,
          (calls.get ⟨k, hk⟩).width = w ∧
          (calls.get ⟨k, hk⟩).bottom = none ∧
          (calls.get ⟨k, hk⟩).ys = (charts.getD k default).y.getD [] ∧
          (calls.get ⟨k, hk⟩).xs =
            (List.range (((charts.getD k default).label.getD []).length)).map
              (fun m => (m : ℚ) + (idx + k) * w) := by
  intro charts
  induction charts with
  | nil =>
    intro idx bb h
    exact ⟨[], rfl, rfl, fun k hk => absurd hk (by simp)⟩
  | cons c rest ih =>
    intro idx bb h
    obtain ⟨hy', hl'⟩ := h c (List.mem_cons_self c rest)
    obtain ⟨y, hy⟩ := Option.isSome_iff_exists.mp hy'
    obtain ⟨ls, hl⟩ := Option.isSome_iff_exists.mp hl'
    obtain ⟨calls', hc', hlen', hspec'⟩ :=
      ih (idx + 1) bb (fun c hc => h c (List.mem_cons_of_mem _ hc))
    rw [plotBarGo_cons_nonstack "group" w sy hor z lbl a K idx bb c rest y ls
      hy hl (by decide), hc']
    refine ⟨_, rfl, by simp [hlen'], ?_⟩
    intro k hk
    cases k with
    | zero =>
      refine ⟨rfl, rfl, ?_, ?_⟩
      · simp [hy]
      · simp [hl]
    | succ k =>
      have hk' : k < calls'.length := by
        simp at hk
        omega
      obtain ⟨h1, h2, h3, h4⟩ := hspec' k hk'
      refine ⟨h1, h2, ?_, ?_⟩
      · simpa using h3
      · have harith : ((idx + 1 : ℕ) : ℚ) + (k : ℚ) = ((idx : ℕ) : ℚ) + ((k + 1 : ℕ) : ℚ) := by
          push_cast
          ring
        rw [List.getD_cons_succ]
        have h4' := h4
        rw [harith] at h4'
        simpa using h4'

/-- The sum of a constant list. -/
theorem sum_of_forall_eq (l : List ℚ) (w : ℚ) (h : ∀ x ∈ l, x = w) :
    l.sum = l.length * w := by
  induction l with
  | nil => simp
  | cons a t ih =>
    rw [List.sum_cons, h a (List.mem_cons_self a t),
      ih (fun x hx => h x (List.mem_cons_of_mem _ hx))]
    simp
    ring

/-- C9: in `group` mode with K bar series all having data, each series is
drawn with width `W / K` (`W` the configured `plot_bar_width`) and series
`k` is offset by `k * (W / K)`, so the K widths sum to exactly `W`,
independent of K. -/
theorem C9_grouped_bar_width_partition (charts : List Chart)
    (settings : Metadata) (cfg : ConfigMap) (z : ℤ) (lbl : Option String)
    (h : ∀ c ∈ charts, c.y.isSome ∧ c.label.isSome) (hK : charts ≠ []) :
    ∃ calls warns,
      _plot_bar_on_axis charts settings cfg z lbl (some "group") =
        some (calls, warns) ∧
      calls.length = charts.length ∧
      (∀ k, ∀ hk : k < calls.length,
        (calls.get ⟨k, hk⟩).width =
          cfg.plot_bar_width.getD (4/5) / charts.length ∧
        (calls.get ⟨k, hk⟩).xs =
          (List.range (((charts.getD k default).label.getD []).length)).map
            (fun m => (m : ℚ) +
              k * (cfg.plot_bar_width.getD (4/5) / charts.length))) ∧
      (calls.map (fun call => call.width)).sum =
        cfg.plot_bar_width.getD (4/5) := by
  have hn : charts.length ≠ 0 := by
    simpa [List.length_eq_zero] using hK
  obtain ⟨calls, hcalls, hlen, hspec⟩ :=
    plotBarGo_group_spec (cfg.plot_bar_width.getD (4/5) / charts.length)
      settings.show_yerr (settings.orientation.getD ("vertical") == "horizontal")
      z lbl none charts.length charts 0 none h
  refine ⟨calls, [], ?_, hlen, ?_, ?_⟩
  · simp [_plot_bar_on_axis, hn, hcalls]
  · intro k hk
    obtain ⟨h1, _, _, h4⟩ := hspec k hk
    exact ⟨h1, by simpa using h4⟩
  · have hall : ∀ x ∈ calls.map (fun call => call.width),
        x = cfg.plot_bar_width.getD (4/5) / charts.length := by
      intro x hx
      obtain ⟨call, hcm, rfl⟩ := List.mem_map.mp hx
      obtain ⟨⟨k, hk⟩, rfl⟩ := List.mem_iff_get.mp hcm
      exact (hspec k hk).1
    rw [sum_of_forall_eq _ _ hall, List.length_map, hlen]
    have hq : (charts.length : ℚ) ≠ 0 := by
      exact_mod_cast hn
    field_simp

/-- No charts leave the bottoms at the initial vector. -/
theorem stackFrom_nil (init : List ℚ) : stackFrom init [] = init := rfl

/-- One chart advances the bottoms by its `y` vector. -/
theorem stackFrom_cons (init : List ℚ) (c : Chart) (rest : List Chart) :
    stackFrom init (c :: rest) =
      stackFrom (List.zipWith (fun u v => u + v) init (c.y.getD [])) rest := rfl

/-- Unfolding the cumulative sums at the last chart. -/
theorem stackFrom_append_single (init : List ℚ) (l : List Chart) (c : Chart) :
    stackFrom init (l ++ [c]) =
      List.zipWith (fun u v => u + v) (stackFrom init l) (c.y.getD []) := by
  simp [stackFrom, List.foldl_append]

/-- In stack mode with all data present (equal category counts `L`), the
`k`-th call carries as bottom the cumulative sums of the first `k` charts
starting from the incoming bottoms, and error bars appear only when the
enumeration index is the last one. -/
theorem plotBarGo_stack_spec (w : ℚ) (sy hor : Bool) (z : ℤ)
    (lbl : Option String) (a : Option ℚ) (K : ℕ) (L : ℕ) :
    ∀ (charts : List Chart) (idx : ℕ) (b0 : List ℚ),
      (∀ c ∈ charts, ∃ ys ls, c.y = some ys ∧ c.label = some ls ∧
        ys.length = L ∧ ls.length = L) →
      b0.length = L →
      ∃ calls, plotBarGo "stack" w sy hor z lbl a K idx (some b0) charts =
          some calls ∧
        calls.length = charts.length ∧
        ∀ k, ∀ hk : k < calls.length,
          (calls.get ⟨k, hk⟩).bottom = some (stackFrom b0 (charts.take k)) ∧
          (calls.get ⟨k, hk⟩).ys = (charts.getD k default).y.getD [] ∧
          (calls.get ⟨k, hk⟩).yerr =
            (if sy && (charts.getD k default).yerr.isSome &&
                (idx + k == K - 1)
              then (charts.getD k default).yerr else none) := by
  intro charts
  induction charts with
  | nil =>
    intro idx b0 h hb
    exact ⟨[], rfl, rfl, fun k hk => absurd hk (by simp)⟩
  | cons c rest ih =>
    intro idx b0 h hb
    obtain ⟨ys, ls, hy, hl, hysL, hlsL⟩ := h c (List.mem_cons_self c rest)
    have hadd : npAddVec b0 ys = some (List.zipWith (fun u v => u + v) b0 ys) := by
      simp [npAddVec, hb, hysL]
    have hb1 : (List.zipWith (fun u v => u + v) b0 ys).length = L := by
      rw [List.length_zipWith, hb, hysL]
      simp
    obtain ⟨calls', hc', hlen', hspec'⟩ :=
      ih (idx + 1) (List.zipWith (fun u v => u + v) b0 ys)
        (fun c hc => h c (List.mem_cons_of_mem _ hc)) hb1
    rw [plotBarGo_cons_stack w sy hor z lbl a K idx b0 c rest ys ls hy hl, hadd]
    simp only [Option.some_bind, hc', Option.map_some']
    refine ⟨_, rfl, by simp [hlen'], ?_⟩
    intro k hk
    cases k with
    | zero =>
      refine ⟨?_, by simp [hy], ?_⟩
      · simp [stackFrom_nil]
      · simp
    | succ k =>
      have hk' : k < calls'.length := by
        simp at hk
        omega
      obtain ⟨h1, h2, h3⟩ := hspec' k hk'
      refine ⟨?_, by simpa using h2, ?_⟩
      · simp only [List.get_cons_succ, h1, List.take_succ_cons,
          stackFrom_cons, List.getD_cons_succ]
        rw [hy]
        rfl
      · have harith : idx + 1 + k = idx + (k + 1) := by omega
        rw [harith] at h3
        simpa using h3

/-- C3: in `stack` mode with K series all having data and the first
series' category count `L` shared by all, the bottom passed for series
`k` equals the per-category sum of series `0..k-1` starting from the zero
vector of length `L`; the top of the last bar (bottom + y) equals the sum
of all K series; and error bars, when enabled, appear on no series before
the final one. -/
theorem C3_stacked_bar_arithmetic (charts : List Chart) (settings : Metadata)
    (cfg : ConfigMap) (z : ℤ) (lbl : Option String) (L : ℕ)
    (h : ∀ c ∈ charts, ∃ ys ls, c.y = some ys ∧ c.label = some ls ∧
      ys.length = L ∧ ls.length = L)
    (hK : charts ≠ []) :
    ∃ calls warns,
      _plot_bar_on_axis charts settings cfg z lbl (some "stack") =
        some (calls, warns) ∧
      calls.length = charts.length ∧
      (∀ k, ∀ hk : k < calls.length,
        (calls.get ⟨k, hk⟩).bottom =
          some (stackFrom (List.replicate L 0) (charts.take k)) ∧
        (calls.get ⟨k, hk⟩).ys = (charts.getD k default).y.getD []) ∧
      (∀ hne : calls ≠ [],
        List.zipWith (fun u v => u + v)
          ((calls.getLast hne).bottom.getD []) ((calls.getLast hne).ys) =
          stackFrom (List.replicate L 0) charts) ∧
      (∀ k, ∀ hk : k < calls.length, k < charts.length - 1 →
        (calls.get ⟨k, hk⟩).yerr = none) := by
  cases charts with
  | nil => exact absurd rfl hK
  | cons c0 rest =>
    obtain ⟨ys0, ls0, hy0, hl0, hys0, hls0⟩ :=
      h c0 (List.mem_cons_self c0 rest)
    obtain ⟨calls, hcalls, hlen, hspec⟩ :=
      plotBarGo_stack_spec (cfg.plot_bar_width.getD (4/5)) settings.show_yerr
        (settings.orientation.getD ("vertical") == "horizontal") z lbl none
        (c0 :: rest).length L (c0 :: rest) 0 (List.replicate L 0) h
        (by simp)
    refine ⟨calls, [], ?_, hlen, ?_, ?_, ?_⟩
    · simp only [List.length_cons] at hcalls
      simp only [_plot_bar_on_axis, Option.getD_some,
        show (("stack" : String) == "group") = false from by decide,
        show (("stack" : String) == "stack") = true from by decide,
        show ¬ (("stack" : String) = "group") from by decide,
        show ¬ (("stack" : String) = "overlay") from by decide,
        show ¬ (1 < (c0 :: rest).length ∧ ("stack" : String) = "overlay")
          from fun hc => absurd hc.2 (by decide),
        Bool.false_or, Bool.true_or, if_true, if_false, ite_true, ite_false,
        and_false, Option.getD_some, hl0, Option.map_some', hls0,
        List.length_cons]
      rw [hcalls]
    · intro k hk
      exact ⟨(hspec k hk).1, (hspec k hk).2.1⟩
    · intro hne
      have hKpos : 0 < calls.length := List.length_pos.mpr hne
      have hlast := List.getLast_eq_get calls hne
      obtain ⟨hb, hy', _⟩ := hspec (calls.length - 1) (by omega)
      rw [hlast, hb, hy']
      have hidx : calls.length - 1 < (c0 :: rest).length := by
        rw [← hlen]
        omega
      have hgd : (c0 :: rest).getD (calls.length - 1) default =
          (c0 :: rest).get ⟨calls.length - 1, hidx⟩ := by
        rw [List.getD_eq_getElem?_getD, List.getElem?_eq_getElem hidx]
        rfl
      have htake : (c0 :: rest).take (calls.length - 1) ++
          [(c0 :: rest).get ⟨calls.length - 1, hidx⟩] =
          (c0 :: rest).take (calls.length - 1 + 1) := by
        have h' := List.take_concat_get (c0 :: rest) (calls.length - 1) hidx
        rw [List.concat_eq_append] at h'
        simpa [List.get_eq_getElem] using h' 
      have htake2 : (c0 :: rest).take (calls.length - 1 + 1) = c0 :: rest := by
        have : calls.length - 1 + 1 = (c0 :: rest).length := by
          rw [← hlen]
          omega
        rw [this, List.take_length]
      rw [Option.getD_some, hgd, ← stackFrom_append_single, htake, htake2]
    · intro k hk hklt
      obtain ⟨_, _, hyerr⟩ := hspec k hk
      rw [hyerr]
      have : ((0 + k : ℕ) == (c0 :: rest).length - 1) = false := by
        rw [beq_eq_false_iff_ne]
        omega
      rw [this]
      simp

/-- C9 witness: two grouped bar series partitioning the width 0.8. -/
theorem C9_grouped_bar_width_partition_witness :
    (∀ c ∈ ([{ y := some [1, 2], label := some ["a", "b"] },
             { y := some [3, 4], label := some ["a", "b"] }] : List Chart),
       c.y.isSome ∧ c.label.isSome) ∧
    (∃ calls warns,
      _plot_bar_on_axis
        [{ y := some [1, 2], label := some ["a", "b"] },
         { y := some [3, 4], label := some ["a", "b"] }] {} {} 0 none
        (some "group") = some (calls, warns) ∧
      calls.length = 2 ∧
      (calls.map (fun call => call.width)).sum = 4/5) := by
  have h : ∀ c ∈ ([{ y := some [1, 2], label := some ["a", "b"] },
      { y := some [3, 4], label := some ["a", "b"] }] : List Chart),
      c.y.isSome ∧ c.label.isSome := by
    intro c hc
    simp at hc
    rcases hc with rfl | rfl <;> exact ⟨rfl, rfl⟩
  obtain ⟨calls, warns, h1, h2, _, h4⟩ :=
    C9_grouped_bar_width_partition
      [{ y := some [1, 2], label := some ["a", "b"] },
       { y := some [3, 4], label := some ["a", "b"] }] {} {} 0 none h
      (by simp)
  exact ⟨h, calls, warns, h1, h2, h4⟩

/-- C3 witness: two stacked bar series over two categories; the top of
the last bar is the per-category total. -/
theorem C3_stacked_bar_arithmetic_witness :
    (∀ c ∈ ([{ y := some [1, 2], label := some ["a", "b"] },
             { y := some [10, 20], label := some ["a", "b"] }] : List Chart),
       ∃ ys ls, c.y = some ys ∧ c.label = some ls ∧
         ys.length = 2 ∧ ls.length = 2) ∧
    (∃ calls warns,
      _plot_bar_on_axis
        [{ y := some [1, 2], label := some ["a", "b"] },
         { y := some [10, 20], label := some ["a", "b"] }] {} {} 0 none
        (some "stack") = some (calls, warns) ∧
      calls.length = 2 ∧
      (∀ hne : calls ≠ [],
        List.zipWith (fun u v => u + v)
          ((calls.getLast hne).bottom.getD []) ((calls.getLast hne).ys) =
          stackFrom (List.replicate 2 0)
            [{ y := some [1, 2], label := some ["a", "b"] },
             { y := some [10, 20], label := some ["a", "b"] }])) := by
  have h : ∀ c ∈ ([{ y := some [1, 2], label := some ["a", "b"] },
      { y := some [10, 20], label := some ["a", "b"] }] : List Chart),
      ∃ ys ls, c.y = some ys ∧ c.label = some ls ∧
        ys.length = 2 ∧ ls.length = 2 := by
    intro c hc
    simp at hc
    rcases hc with rfl | rfl
    · exact ⟨[1, 2], ["a", "b"], rfl, rfl, rfl, rfl⟩
    · exact ⟨[10, 20], ["a", "b"], rfl, rfl, rfl, rfl⟩
  obtain ⟨calls, warns, h1, h2, _, h4, _⟩ :=
    C3_stacked_bar_arithmetic
      [{ y := some [1, 2], label := some ["a", "b"] },
       { y := some [10, 20], label := some ["a", "b"] }] {} {} 0 none 2 h
      (by simp)
  exact ⟨h, calls, warns, h1, h2, h4⟩

/-- Per-chart extraction never raises when the histogram bin count is nonzero. -/
theorem chartYValues_isSome (ty : String) (n : ℕ) (c : Chart)
    (h : ty = "histogram" → n ≠ 0) : (chartYValues ty n c).isSome := by
  by_cases h1 : (ty = "linechart" ∨ ty = "barchart" ∨ ty = "scatterchart")
  · simp [chartYValues, h1]
  · by_cases h2 : ty = "histogram"
    · rw [chartYValues, if_neg h1, if_pos h2]
      cases hx : c.x with
      | none => simp
      | some xs => simp [npHistogramCounts, h h2]
    · simp [chartYValues, h1, h2]

/-- The extraction loop never raises when the histogram bin count is nonzero. -/
theorem collectYValues_isSome (ty : String) (n : ℕ) (charts : List Chart)
    (h : ty = "histogram" → n ≠ 0) :
    (collectYValues ty n charts).isSome := by
  induction charts with
  | nil => simp [collectYValues]
  | cons c rest ih =>
    obtain ⟨v, hv⟩ := Option.isSome_iff_exists.mp (chartYValues_isSome ty n c h)
    obtain ⟨vs, hvs⟩ := Option.isSome_iff_exists.mp ih
    simp [collectYValues, hv, hvs, bind, Option.bind]

/-- For histogram descriptors the collected values are exactly the
concatenated per-chart bin counts — not the raw samples. -/
theorem collectYValues_histogram_flatten (n : ℕ) (hn : n ≠ 0)
    (charts : List Chart) :
    collectYValues "histogram" n charts =
      some ((charts.map (histogramContribution n)).flatten) := by
  induction charts with
  | nil => simp [collectYValues]
  | cons c rest ih =>
    rw [collectYValues]
    rw [chartYValues_histogram]
    cases hx : c.x with
    | none =>
      simp [ih, bind, Option.bind, histogramContribution, hx]
    | some xs =>
      obtain ⟨cs, hcs⟩ := Option.isSome_iff_exists.mp
        (show (npHistogramCounts xs n).isSome by simp [npHistogramCounts, hn])
      simp [ih, bind, Option.bind, histogramContribution, hx, hcs]

/-- The running minimum is one of the values. -/
theorem foldl_min_mem (l : List ℚ) : ∀ v : ℚ, l.foldl min v ∈ v :: l := by
  induction l with
  | nil => intro v; simp
  | cons a t ih =>
    intro v
    have := ih (min v a)
    rcases min_choice v a with h | h <;> rw [h] at this <;>
      simp only [List.foldl_cons] <;> rw [h]
    · rcases List.mem_cons.mp this with h' | h'
      · simp [h']
      · simp [List.mem_cons_of_mem, h']
    · rcases List.mem_cons.mp this with h' | h'
      · simp [h']
      · simp [List.mem_cons_of_mem, h']

/-- The running maximum is one of the values. -/
theorem foldl_max_mem (l : List ℚ) : ∀ v : ℚ, l.foldl max v ∈ v :: l := by
  induction l with
  | nil => intro v; simp
  | cons a t ih =>
    intro v
    have := ih (max v a)
    rcases max_choice v a with h | h <;> rw [h] at this <;>
      simp only [List.foldl_cons] <;> rw [h]
    · rcases List.mem_cons.mp this with h' | h'
      · simp [h']
      · simp [List.mem_cons_of_mem, h']
    · rcases List.mem_cons.mp this with h' | h'
      · simp [h']
      · simp [List.mem_cons_of_mem, h']

/-- The running minimum bounds every value from below. -/
theorem foldl_min_le (l : List ℚ) : ∀ v : ℚ, ∀ w ∈ v :: l, l.foldl min v ≤ w := by
  induction l with
  | nil =>
    intro v w hw
    simp at hw
    simp [hw]
  | cons a t ih =>
    intro v w hw
    simp only [List.foldl_cons]
    rcases List.mem_cons.mp hw with h | hw'
    · rw [h]
      exact le_trans (ih (min v a) (min v a) (List.mem_cons_self _ _))
        (min_le_left v a)
    · rcases List.mem_cons.mp hw' with h | hw''
      · rw [h]
        exact le_trans (ih (min v a) (min v a) (List.mem_cons_self _ _))
          (min_le_right v a)
      · exact ih (min v a) w (List.mem_cons_of_mem _ hw'')

/-- The running maximum bounds every value from above. -/
theorem foldl_max_ge (l : List ℚ) : ∀ v : ℚ, ∀ w ∈ v :: l, w ≤ l.foldl max v := by
  induction l with
  | nil =>
    intro v w hw
    simp at hw
    simp [hw]
  | cons a t ih =>
    intro v w hw
    simp only [List.foldl_cons]
    rcases List.mem_cons.mp hw with h | hw'
    · rw [h]
      exact le_trans (le_max_left v a)
        (ih (max v a) (max v a) (List.mem_cons_self _ _))
    · rcases List.mem_cons.mp hw' with h | hw''
      · rw [h]
        exact le_trans (le_max_right v a)
          (ih (max v a) (max v a) (List.mem_cons_self _ _))
      · exact ih (max v a) w (List.mem_cons_of_mem _ hw'')

/-- C8 (amended): for every chart descriptor whose stored histogram bin
count is nonzero (the amendment — see the counterexample for a stored bin
count of zero), `_get_data_range` does not raise; it returns exactly
`(0, 1)` when no y values are extracted, and otherwise `(min, max)` over
the extracted values (both attained, and bounding every value); histogram
charts contribute their computed per-bin counts (using the stored bin
count, default 20) rather than their raw samples. -/
theorem C8_range_extractor (cd : ChartData)
    (hbins : cd.type = "histogram" → cd.metadata.num_bins.getD 20 ≠ 0) :
    ∃ vs, collectYValues cd.type (cd.metadata.num_bins.getD 20) cd.charts =
        some vs ∧
      (vs = [] → _get_data_range cd = some (0, 1)) ∧
      (vs ≠ [] → ∃ lo hi, _get_data_range cd = some (lo, hi) ∧
        lo ∈ vs ∧ hi ∈ vs ∧ ∀ w ∈ vs, lo ≤ w ∧ w ≤ hi) ∧
      (cd.type = "histogram" →
        vs = (cd.charts.map
          (histogramContribution (cd.metadata.num_bins.getD 20))).flatten) := by
  obtain ⟨vs, hvs⟩ := Option.isSome_iff_exists.mp
    (collectYValues_isSome cd.type (cd.metadata.num_bins.getD 20) cd.charts hbins)
  refine ⟨vs, hvs, ?_, ?_, ?_⟩
  · intro he
    subst he
    simp [_get_data_range, hvs, bind, Option.bind]
  · intro hne
    cases vs with
    | nil => exact absurd rfl hne
    | cons v l =>
      refine ⟨l.foldl min v, l.foldl max v, ?_, ?_, ?_, ?_⟩
      · simp [_get_data_range, hvs, bind, Option.bind]
      · exact foldl_min_mem l v
      · exact foldl_max_mem l v
      · intro w hw
        exact ⟨foldl_min_le l v w hw, foldl_max_ge l v w hw⟩
  · intro hty
    have := collectYValues_histogram_flatten (cd.metadata.num_bins.getD 20)
      (hbins hty) cd.charts
    rw [hty] at hvs
    rw [this] at hvs
    exact (Option.some_inj.mp hvs).symm

/-- C8 witness: a histogram descriptor over samples `[0,0,0,10]` with two
bins; extraction succeeds and the range is attained by the bin counts. -/
theorem C8_range_extractor_witness :
    (((⟨"histogram", [{ x := some [0, 0, 0, 10] }],
        { num_bins := some 2 }⟩ : ChartData).type = "histogram" →
      (({ num_bins := some 2 } : Metadata).num_bins.getD 20) ≠ 0) ∧
    (∃ vs, collectYValues "histogram" 2 [{ x := some [0, 0, 0, 10] }] =
        some vs ∧
      (vs ≠ [] → ∃ lo hi,
        _get_data_range ⟨"histogram", [{ x := some [0, 0, 0, 10] }],
          { num_bins := some 2 }⟩ = some (lo, hi) ∧
        lo ∈ vs ∧ hi ∈ vs ∧ ∀ w ∈ vs, lo ≤ w ∧ w ≤ hi))) := by
  refine ⟨fun _ => by decide, ?_⟩
  obtain ⟨vs, h1, _, h3, _⟩ :=
    C8_range_extractor
      ⟨"histogram", [{ x := some [0, 0, 0, 10] }], { num_bins := some 2 }⟩
      (fun _ => by decide)
  exact ⟨vs, h1, h3⟩

/-- C8 counterexample: `_get_data_range` raises (`none`) on a reachable
histogram descriptor whose stored `num_bins` is `0` (such a figure is
produced by `Histogram(..., num_bins=0)`, whose renderer silently falls
back to the default bin count while the metadata keeps the `0`):
`np.histogram(x, bins=0)` raises `ValueError`, so the claim that
`_get_data_range` never raises is false as stated. -/
theorem C8_never_raises_counterexample :
    _get_data_range
      ⟨"histogram", [{ x := some [1, 2] }], { num_bins := some 0 }⟩ = none := by
  norm_num [_get_data_range, collectYValues, chartYValues_histogram,
    npHistogramCounts, bind, Option.bind]

/-- The unassigned indices returned by the inner loop form a sublist. -/
theorem extendGroup_snd_sublist (ranges : List DataRange) (t : ℚ) :
    ∀ (l g : List ℕ), (extendGroup ranges t g l).2.Sublist l := by
  intro l
  induction l with
  | nil => intro g; simp [extendGroup]
  | cons j rest ih =>
    intro g
    simp only [extendGroup]
    split
    · exact (ih (g ++ [j])).cons j
    · exact (ih g).cons₂ j

/-- The inner loop only moves indices between the group and the rest. -/
theorem extendGroup_perm (ranges : List DataRange) (t : ℚ) :
    ∀ (l g : List ℕ),
      ((extendGroup ranges t g l).1 ++ (extendGroup ranges t g l).2).Perm
        (g ++ l) := by
  intro l
  induction l with
  | nil => intro g; simp [extendGroup]
  | cons j rest ih =>
    intro g
    simp only [extendGroup]
    split
    · refine (ih (g ++ [j])).trans ?_
      rw [List.append_assoc]
      simp
    · refine List.Perm.trans ?_ (List.perm_middle.symm)
      refine List.Perm.trans List.perm_middle ?_
      exact (ih g).cons j

/-- A chart joins a group only when compatible with every member, so grown
groups stay mutually compatible. -/
theorem extendGroup_mutual (ranges : List DataRange) (t : ℚ) :
    ∀ (l g : List ℕ),
      (∀ i ∈ g, ∀ j ∈ g, i ≠ j →
        _scale_compatible (rangeAt ranges i) (rangeAt ranges j) t = true) →
      ∀ i ∈ (extendGroup ranges t g l).1, ∀ j ∈ (extendGroup ranges t g l).1,
        i ≠ j →
        _scale_compatible (rangeAt ranges i) (rangeAt ranges j) t = true := by
  intro l
  induction l with
  | nil =>
    intro g hg
    simpa [extendGroup] using hg
  | cons j rest ih =>
    intro g hg
    simp only [extendGroup]
    split
    · rename_i hall
      refine ih (g ++ [j]) ?_
      intro a ha b hb hne
      rw [List.all_eq_true] at hall
      rcases List.mem_append.mp ha with ha' | ha' <;>
        rcases List.mem_append.mp hb with hb' | hb'
      · exact hg a ha' b hb' hne
      · rw [List.mem_singleton.mp hb']
        exact hall a ha'
      · rw [List.mem_singleton.mp ha']
        rw [scale_compatible_symm]
        exact hall b hb'
      · exact absurd (by rw [List.mem_singleton.mp ha', List.mem_singleton.mp hb'])
          hne
    · exact ih g hg

/-- The greedy clusters cover exactly the unassigned indices. -/
theorem buildGroups_flatten_perm (ranges : List DataRange) (t : ℚ) :
    ∀ (fuel : ℕ) (l : List ℕ), l.length ≤ fuel →
      (buildGroups ranges t fuel l).flatten.Perm l := by
  intro fuel
  induction fuel with
  | zero =>
    intro l hl
    rw [Nat.le_zero, List.length_eq_zero] at hl
    subst hl
    simp [buildGroups]
  | succ fuel ih =>
    intro l hl
    cases l with
    | nil => simp [buildGroups]
    | cons i rest =>
      simp only [buildGroups, List.flatten_cons]
      have hsub := extendGroup_snd_sublist ranges t rest [i]
      have hlen : (extendGroup ranges t [i] rest).2.length ≤ fuel := by
        have := hsub.length_le
        simp at hl
        omega
      refine List.Perm.trans
        (List.Perm.append_left _ (ih (extendGroup ranges t [i] rest).2 hlen)) ?_
      exact extendGroup_perm ranges t rest [i]

/-- Every greedy cluster is mutually scale-compatible. -/
theorem buildGroups_mutual (ranges : List DataRange) (t : ℚ) :
    ∀ (fuel : ℕ) (l : List ℕ), ∀ g ∈ buildGroups ranges t fuel l,
      ∀ i ∈ g, ∀ j ∈ g, i ≠ j →
        _scale_compatible (rangeAt ranges i) (rangeAt ranges j) t = true := by
  intro fuel
  induction fuel with
  | zero =>
    intro l g hg
    cases l <;> simp [buildGroups] at hg
  | succ fuel ih =>
    intro l g hg
    cases l with
    | nil => simp [buildGroups] at hg
    | cons i rest =>
      simp only [buildGroups, List.mem_cons] at hg
      rcases hg with rfl | hg
      · refine extendGroup_mutual ranges t rest [i] ?_
        intro a ha b hb hne
        rw [List.mem_singleton.mp ha, List.mem_singleton.mp hb] at hne
        exact absurd rfl hne
      · exact ih _ g hg

/-- The clusters partition the chart indices `0..n-1`. -/
theorem cluster_flatten_perm (ranges : List DataRange) (t : ℚ) :
    (_cluster_by_scale_compatibility ranges t).flatten.Perm
      (List.range ranges.length) := by
  unfold _cluster_by_scale_compatibility
  by_cases h0 : ranges.length = 0
  · simp [h0]
  · by_cases h1 : ranges.length = 1
    · simp [h0, h1, List.range_succ]
    · rw [if_neg h0, if_neg h1]
      exact buildGroups_flatten_perm ranges t ranges.length
        (List.range ranges.length) (by simp)

/-- Every cluster of `_cluster_by_scale_compatibility` is mutually
compatible. -/
theorem cluster_mutual (ranges : List DataRange) (t : ℚ) :
    ∀ g ∈ _cluster_by_scale_compatibility ranges t,
      ∀ i ∈ g, ∀ j ∈ g, i ≠ j →
        _scale_compatible (rangeAt ranges i) (rangeAt ranges j) t = true := by
  unfold _cluster_by_scale_compatibility
  by_cases h0 : ranges.length = 0
  · simp [h0]
  · by_cases h1 : ranges.length = 1
    · rw [if_neg h0, if_pos h1]
      intro g hg i hi j hj hne
      rw [List.mem_singleton.mp hg] at hi hj
      rw [List.mem_singleton.mp hi, List.mem_singleton.mp hj] at hne
      exact absurd rfl hne
    · rw [if_neg h0, if_neg h1]
      exact buildGroups_mutual ranges t ranges.length (List.range ranges.length)

/-- Stable insertion is a permutation. -/
theorem insertByLenDesc_perm (g : List ℕ) :
    ∀ l : List (List ℕ), (insertByLenDesc g l).Perm (g :: l) := by
  intro l
  induction l with
  | nil => simp [insertByLenDesc]
  | cons h rest ih =>
    simp only [insertByLenDesc]
    split
    · exact List.Perm.refl _
    · exact (ih.cons h).trans (List.Perm.swap g h rest)

/-- The stable sort is a permutation of the clusters. -/
theorem sortByLenDesc_perm (gs : List (List ℕ)) :
    (sortByLenDesc gs).Perm gs := by
  induction gs with
  | nil => simp [sortByLenDesc]
  | cons g rest ih =>
    have : sortByLenDesc (g :: rest) = insertByLenDesc g (sortByLenDesc rest) :=
      rfl
    rw [this]
    exact (insertByLenDesc_perm g (sortByLenDesc rest)).trans (ih.cons g)

/-- Stable insertion preserves the size-descending order. -/
theorem insertByLenDesc_pairwise (g : List ℕ) :
    ∀ l : List (List ℕ),
      List.Pairwise (fun a b => b.length ≤ a.length) l →
      List.Pairwise (fun a b => b.length ≤ a.length) (insertByLenDesc g l) := by
  intro l
  induction l with
  | nil => intro _; simp [insertByLenDesc]
  | cons h rest ih =>
    intro hp
    obtain ⟨hh, hrest⟩ := List.pairwise_cons.mp hp
    simp only [insertByLenDesc]
    split
    · rename_i hcase
      rw [List.pairwise_cons]
      refine ⟨?_, hp⟩
      intro x hx
      rcases List.mem_cons.mp hx with rfl | hx'
      · exact hcase
      · exact le_trans (hh x hx') hcase
    · rename_i hcase
      rw [List.pairwise_cons]
      refine ⟨?_, ih hrest⟩
      intro x hx
      have hx2 := (insertByLenDesc_perm g rest).mem_iff.mp hx
      rcases List.mem_cons.mp hx2 with rfl | hx'
      · omega
      · exact hh x hx'

/-- The sorted clusters are in size-descending order. -/
theorem sortByLenDesc_pairwise (gs : List (List ℕ)) :
    List.Pairwise (fun a b => b.length ≤ a.length) (sortByLenDesc gs) := by
  induction gs with
  | nil => simp [sortByLenDesc]
  | cons g rest ih =>
    exact insertByLenDesc_pairwise g (sortByLenDesc rest) ih

/-- Reading an entry after the right-axis assignment loop. -/
theorem setAxisRight_get? :
    ∀ (idxs : List ℕ) (base : List String) (i : ℕ),
      (setAxisRight base idxs).get? i =
        if i ∈ idxs ∧ i < base.length then some "right" else base.get? i := by
  intro idxs
  induction idxs with
  | nil =>
    intro base i
    simp [setAxisRight]
  | cons j rest ih =>
    intro base i
    have hstep : setAxisRight base (j :: rest) =
        setAxisRight (base.set j "right") rest := rfl
    rw [hstep, ih]
    rw [List.length_set]
    by_cases hmem : i ∈ rest
    · by_cases hlt : i < base.length
      · rw [if_pos ⟨hmem, hlt⟩, if_pos ⟨List.mem_cons_of_mem j hmem, hlt⟩]
      · rw [if_neg (fun hc => hlt hc.2), if_neg (fun hc => hlt hc.2)]
        rw [List.get?_eq_getElem?, List.get?_eq_getElem?, List.getElem?_set]
        by_cases hij : j = i
        · subst hij
          rw [if_pos rfl, if_neg (by omega)]
          rw [List.getElem?_eq_none (by omega)]
        · rw [if_neg hij]
    · by_cases hij : j = i
      · subst hij
        by_cases hlt : j < base.length
        · rw [if_neg (fun hc => hmem hc.1), if_pos ⟨List.mem_cons_self j rest, hlt⟩]
          rw [List.get?_eq_getElem?, List.getElem?_set, if_pos rfl, if_pos hlt]
        · rw [if_neg (fun hc => hmem hc.1), if_neg (fun hc => hlt hc.2)]
          rw [List.get?_eq_getElem?, List.get?_eq_getElem?, List.getElem?_set,
            if_pos rfl, if_neg hlt]
          rw [List.getElem?_eq_none (by omega)]
      · rw [if_neg (fun hc => hmem hc.1)]
        have : (i ∈ j :: rest ∧ i < base.length) ↔ False := by
          constructor
          · rintro ⟨hc, _⟩
            rcases List.mem_cons.mp hc with rfl | hc'
            · exact hij rfl
            · exact hmem hc'
          · exact False.elim
        rw [if_neg (fun hc => this.mp hc)]
        rw [List.get?_eq_getElem?, List.get?_eq_getElem?, List.getElem?_set,
          if_neg hij]

/-- The right-axis assignment loop preserves the list length. -/
theorem setAxisRight_length :
    ∀ (idxs : List ℕ) (base : List String),
      (setAxisRight base idxs).length = base.length := by
  intro idxs
  induction idxs with
  | nil => intro base; rfl
  | cons j rest ih =>
    intro base
    have hstep : setAxisRight base (j :: rest) =
        setAxisRight (base.set j "right") rest := rfl
    rw [hstep, ih, List.length_set]

/-- Permuting the clusters permutes their members. -/
theorem perm_flatten {l₁ l₂ : List (List ℕ)} (h : l₁.Perm l₂) :
    l₁.flatten.Perm l₂.flatten := by
  induction h with
  | nil => exact List.Perm.refl _
  | cons x _ ih =>
    simp only [List.flatten_cons]
    exact List.Perm.append_left x ih
  | swap x y l =>
    simp only [List.flatten_cons]
    exact List.perm_append_comm_assoc y x l.flatten
  | trans _ _ ih1 ih2 => exact ih1.trans ih2

/-- In-range cluster indices read the same range through the mapped list. -/
theorem rangeAt_map (cfgs : List ChartConfig) (i : ℕ) (hi : i < cfgs.length) :
    rangeAt (cfgs.map (fun c => c.data_range)) i = rangeOf cfgs i := by
  rw [rangeAt, rangeOf, List.getD_eq_getElem?_getD, List.getD_eq_getElem?_getD,
    List.getElem?_map, List.getElem?_eq_getElem hi]
  rfl

/-- `buildChartConfigs` on the two spec-scenario figures: a bar chart with
values 10/20/30 and a line chart with values 1000/2000/4000. -/
theorem scenario_build :
    buildChartConfigs 0
      [{ figure := some scenarioBarFigure },
       { figure := some scenarioLineFigure }] =
      .ok [{ chart_data := { type := "barchart",
                             charts := [{ y := some [10, 20, 30],
                                          label := some ["A", "B", "C"] }],
                             metadata := scenarioBarFigure._chart_metadata.getD {} },
             data_range := (10, 30) },
           { chart_data := { type := "linechart",
                             charts := [{ x := some [0, 1, 2],
                                          y := some [1000, 2000, 4000] }],
                             metadata := scenarioLineFigure._chart_metadata.getD {} },
             data_range := (1000, 4000) }] := by
  norm_num [buildChartConfigs, _extract_chart_data, _get_data_range,
    collectYValues, chartYValues_barchart, chartYValues_linechart,
    scenarioBarFigure, scenarioLineFigure,
    bind, Except.bind, Option.bind]

/-- On an all-`auto` nonempty config list with the warn flag on, the
assigner takes the clustering branch: left everywhere, the second sorted
cluster flipped to right, and an overflow warning iff more than two
clusters. -/
theorem determine_auto_eq (cfgs : List ChartConfig) (t : ℚ)
    (sorted : List (List ℕ)) (hn : cfgs.length ≠ 0)
    (hall : cfgs.all (fun c => c.y_axis == "auto") = true)
    (hs : sorted = sortByLenDesc (_cluster_by_scale_compatibility
      (cfgs.map (fun c => c.data_range)) t)) :
    _determine_axis_assignment cfgs t true =
      ((match sorted.get? 1 with
        | some second => setAxisRight (List.replicate cfgs.length "left") second
        | none => List.replicate cfgs.length "left"),
       if 2 < sorted.length then
         [OverlayWarning.scaleGroupOverflow sorted.length
           (sorted.map List.length)]
       else []) := by
  subst hs
  simp only [_determine_axis_assignment, if_neg hn, hall, Bool.and_self,
    if_true, Bool.true_and, Bool.and_true]

/-- Every index placed in a cluster is a valid chart index. -/
theorem cluster_mem_lt (cfgs : List ChartConfig) (t : ℚ) (g : List ℕ)
    (hg : g ∈ _cluster_by_scale_compatibility
      (cfgs.map (fun c => c.data_range)) t) :
    ∀ i ∈ g, i < cfgs.length := by
  intro i hi
  have hmem : i ∈ (_cluster_by_scale_compatibility
      (cfgs.map (fun c => c.data_range)) t).flatten :=
    List.mem_flatten.mpr ⟨g, hg, hi⟩
  have hperm := cluster_flatten_perm (cfgs.map (fun c => c.data_range)) t
  rw [List.length_map] at hperm
  have := hperm.mem_iff.mp hmem
  exact List.mem_range.mp this

/-- C1: on an all-`auto` chart list the assigner greedily partitions the
charts into mutually scale-compatible clusters that cover every chart
exactly once, sorts them by size descending, assigns the second sorted
cluster (when present) to the right axis and every other chart to the
left axis, and warns exactly when more than two clusters arise; the
bar-chart/line-chart spec scenario at threshold 3 lands on left/right
with a right axis instantiated. -/
theorem C1_auto_axis_policy (cfgs : List ChartConfig) (t : ℚ)
    (hauto : ∀ c ∈ cfgs, c.y_axis = "auto") :
    (∀ g ∈ _cluster_by_scale_compatibility
        (cfgs.map (fun c => c.data_range)) t,
      ∀ i ∈ g, ∀ j ∈ g, i ≠ j →
        _scale_compatible (rangeOf cfgs i) (rangeOf cfgs j) t = true) ∧
    (_cluster_by_scale_compatibility
        (cfgs.map (fun c => c.data_range)) t).flatten.Perm
      (List.range cfgs.length) ∧
    (sortByLenDesc (_cluster_by_scale_compatibility
        (cfgs.map (fun c => c.data_range)) t)).Perm
      (_cluster_by_scale_compatibility (cfgs.map (fun c => c.data_range)) t) ∧
    List.Pairwise (fun a b => b.length ≤ a.length)
      (sortByLenDesc (_cluster_by_scale_compatibility
        (cfgs.map (fun c => c.data_range)) t)) ∧
    (_determine_axis_assignment cfgs t true).1.length = cfgs.length ∧
    (∀ i, i < cfgs.length →
      (_determine_axis_assignment cfgs t true).1.get? i =
        (if i ∈ (sortByLenDesc (_cluster_by_scale_compatibility
            (cfgs.map (fun c => c.data_range)) t)).getD 1 []
         then some "right" else some "left")) ∧
    (∀ k, ∀ hk : k < (sortByLenDesc (_cluster_by_scale_compatibility
        (cfgs.map (fun c => c.data_range)) t)).length, k ≠ 1 →
      ∀ i ∈ (sortByLenDesc (_cluster_by_scale_compatibility
        (cfgs.map (fun c => c.data_range)) t)).get ⟨k, hk⟩,
        (_determine_axis_assignment cfgs t true).1.get? i = some "left") ∧
    ((_determine_axis_assignment cfgs t true).2 ≠ [] ↔
      2 < (sortByLenDesc (_cluster_by_scale_compatibility
        (cfgs.map (fun c => c.data_range)) t)).length) ∧
    (∃ r, OverlayChart
        [{ figure := some scenarioBarFigure },
         { figure := some scenarioLineFigure }] {} (some 3) none = .ok r ∧
      r.axis_assignments = ["left", "right"] ∧ r.hasRightAxis = true) := by
  -- the concrete spec scenario, computed end to end
  have hscen : ∃ r, OverlayChart
      [{ figure := some scenarioBarFigure },
       { figure := some scenarioLineFigure }] {} (some 3) none = .ok r ∧
      r.axis_assignments = ["left", "right"] ∧ r.hasRightAxis = true := by
    have hdet : _determine_axis_assignment
        [{ chart_data := { type := "barchart",
                           charts := [{ y := some [10, 20, 30],
                                        label := some ["A", "B", "C"] }],
                           metadata := scenarioBarFigure._chart_metadata.getD {} },
           data_range := (10, 30) },
         { chart_data := { type := "linechart",
                           charts := [{ x := some [0, 1, 2],
                                        y := some [1000, 2000, 4000] }],
                           metadata := scenarioLineFigure._chart_metadata.getD {} },
           data_range := (1000, 4000) }] 3 true = (["left", "right"], []) := by
      norm_num [_determine_axis_assignment, _cluster_by_scale_compatibility,
        buildGroups, extendGroup, rangeAt, _scale_compatible, sortByLenDesc,
        insertByLenDesc, setAxisRight, List.range, List.range.loop, List.set,
        List.replicate]
    have e1 : (("left" : String) == "right") = false := by decide
    have e2 : (("right" : String) == "right") = true := by decide
    have e3 : (("barchart" : String) == "barchart") = true := by decide
    have e4 : (("linechart" : String) == "barchart") = false := by decide
    have hw : ((({} : ConfigMap)).overlay_warn_scale_groups.getD true) = true := rfl
    have hbm : ((({} : ConfigMap)).overlay_bar_mode.getD ("group")) = "group" := rfl
    have hwt : ((({} : ConfigMap)).overlay_warn_thin_bars.getD true) = true := rfl
    have hbw : ((({} : ConfigMap)).plot_bar_width.getD (4/5)) = 4/5 := rfl
    have hov : OverlayChart
        [{ figure := some scenarioBarFigure },
         { figure := some scenarioLineFigure }] {} (some 3) none =
        .ok { chart_configs :=
                [{ chart_data := { type := "barchart",
                                   charts := [{ y := some [10, 20, 30],
                                                label := some ["A", "B", "C"] }],
                                   metadata :=
                                     scenarioBarFigure._chart_metadata.getD {} },
                   data_range := (10, 30) },
                 { chart_data := { type := "linechart",
                                   charts := [{ x := some [0, 1, 2],
                                                y := some [1000, 2000, 4000] }],
                                   metadata :=
                                     scenarioLineFigure._chart_metadata.getD {} },
                   data_range := (1000, 4000) }],
              axis_assignments := ["left", "right"], hasRightAxis := true,
              bar_mode := "group", threshold := 3, warnings := [] } := by
      simp only [OverlayChart, List.length_cons, List.length_nil, bind,
        Except.bind, scenario_build, hw, hbm, hwt, hbw, hdet]
      norm_num [List.any, List.filter, e1, e2, e3, e4]
    exact ⟨_, hov, rfl, rfl⟩
  by_cases hn : cfgs.length = 0
  · rw [List.length_eq_zero] at hn
    subst hn
    refine ⟨by simp [_cluster_by_scale_compatibility],
      by simp [_cluster_by_scale_compatibility],
      by simp [_cluster_by_scale_compatibility, sortByLenDesc],
      by simp [_cluster_by_scale_compatibility, sortByLenDesc],
      by simp [_determine_axis_assignment],
      by simp, ?_,
      by simp [_determine_axis_assignment, _cluster_by_scale_compatibility,
        sortByLenDesc], hscen⟩
    intro k hk
    simp [_cluster_by_scale_compatibility, sortByLenDesc] at hk
  · have hall : cfgs.all (fun c => c.y_axis == "auto") = true := by
      rw [List.all_eq_true]
      intro c hc
      simp [hauto c hc]
    have heq := determine_auto_eq cfgs t
      (sortByLenDesc (_cluster_by_scale_compatibility
        (cfgs.map (fun c => c.data_range)) t)) hn hall rfl
    have hsortperm := sortByLenDesc_perm
      (_cluster_by_scale_compatibility (cfgs.map (fun c => c.data_range)) t)
    have hsorted_mem_lt : ∀ g ∈ sortByLenDesc
        (_cluster_by_scale_compatibility (cfgs.map (fun c => c.data_range)) t),
        ∀ i ∈ g, i < cfgs.length := by
      intro g hg
      exact cluster_mem_lt cfgs t g (hsortperm.mem_iff.mp hg)
    have hcompat : ∀ g ∈ _cluster_by_scale_compatibility
        (cfgs.map (fun c => c.data_range)) t,
        ∀ i ∈ g, ∀ j ∈ g, i ≠ j →
        _scale_compatible (rangeOf cfgs i) (rangeOf cfgs j) t = true := by
      intro g hg i hi j hj hne
      have h1 := cluster_mutual (cfgs.map (fun c => c.data_range)) t g hg i hi j hj hne
      rwa [rangeAt_map cfgs i (cluster_mem_lt cfgs t g hg i hi),
        rangeAt_map cfgs j (cluster_mem_lt cfgs t g hg j hj)] at h1
    have hflat := cluster_flatten_perm (cfgs.map (fun c => c.data_range)) t
    rw [List.length_map] at hflat
    -- characterization of the assignment list
    have hchar : ∀ i, i < cfgs.length →
        (_determine_axis_assignment cfgs t true).1.get? i =
          (if i ∈ (sortByLenDesc (_cluster_by_scale_compatibility
              (cfgs.map (fun c => c.data_range)) t)).getD 1 []
           then some "right" else some "left") := by
      intro i hi
      rw [heq]
      cases h1 : (sortByLenDesc (_cluster_by_scale_compatibility
          (cfgs.map (fun c => c.data_range)) t)).get? 1 with
      | none =>
        have hgd : (sortByLenDesc (_cluster_by_scale_compatibility
            (cfgs.map (fun c => c.data_range)) t)).getD 1 [] = [] := by
          rw [List.getD_eq_getElem?_getD, ← List.get?_eq_getElem?, h1]
          rfl
        rw [hgd]
        simp only [List.not_mem_nil, if_false, ite_false]
        rw [List.get?_eq_getElem?, List.getElem?_replicate, if_pos hi]
      | some second =>
        have hgd : (sortByLenDesc (_cluster_by_scale_compatibility
            (cfgs.map (fun c => c.data_range)) t)).getD 1 [] = second := by
          rw [List.getD_eq_getElem?_getD, ← List.get?_eq_getElem?, h1]
          rfl
        rw [hgd, setAxisRight_get?, List.length_replicate]
        by_cases hmem : i ∈ second
        · rw [if_pos ⟨hmem, hi⟩, if_pos hmem]
        · rw [if_neg (fun hc => hmem hc.1), if_neg hmem]
          rw [List.get?_eq_getElem?, List.getElem?_replicate, if_pos hi]
    refine ⟨hcompat, hflat, hsortperm, sortByLenDesc_pairwise _, ?_, hchar,
      ?_, ?_, hscen⟩
    · rw [heq]
      cases h1 : (sortByLenDesc (_cluster_by_scale_compatibility
          (cfgs.map (fun c => c.data_range)) t)).get? 1 with
      | none => simp [List.length_replicate]
      | some second => simp [setAxisRight_length, List.length_replicate]
    · -- clusters other than the second sorted one land on the left axis
      intro k hk hk1 i hi
      have hilt : i < cfgs.length :=
        hsorted_mem_lt _ (List.get_mem _ _ hk) i hi
      rw [hchar i hilt]
      cases h1 : (sortByLenDesc (_cluster_by_scale_compatibility
          (cfgs.map (fun c => c.data_range)) t)).get? 1 with
      | none =>
        have hgd : (sortByLenDesc (_cluster_by_scale_compatibility
            (cfgs.map (fun c => c.data_range)) t)).getD 1 [] = [] := by
          rw [List.getD_eq_getElem?_getD, ← List.get?_eq_getElem?, h1]
          rfl
        rw [hgd]
        simp
      | some second =>
        have hgd : (sortByLenDesc (_cluster_by_scale_compatibility
            (cfgs.map (fun c => c.data_range)) t)).getD 1 [] = second := by
          rw [List.getD_eq_getElem?_getD, ← List.get?_eq_getElem?, h1]
          rfl
        rw [hgd]
        -- disjointness of distinct sorted clusters
        have hnodup : (sortByLenDesc (_cluster_by_scale_compatibility
            (cfgs.map (fun c => c.data_range)) t)).flatten.Nodup := by
          have hp := (perm_flatten hsortperm).trans hflat
          exact hp.nodup_iff.mpr (List.nodup_range cfgs.length)
        have hdisj := (List.nodup_flatten.mp hnodup).2
        have h1lt : 1 < (sortByLenDesc (_cluster_by_scale_compatibility
            (cfgs.map (fun c => c.data_range)) t)).length := by
          by_contra hcon
          rw [List.get?_eq_getElem?, List.getElem?_eq_none (by omega)] at h1
          exact Option.noConfusion h1
        have hsecond : (sortByLenDesc (_cluster_by_scale_compatibility
            (cfgs.map (fun c => c.data_range)) t)).get ⟨1, h1lt⟩ = second := by
          rw [← Option.some_inj, ← List.get?_eq_get, h1]
        have hdisj2 : List.Disjoint ((sortByLenDesc
            (_cluster_by_scale_compatibility
              (cfgs.map (fun c => c.data_range)) t)).get ⟨k, hk⟩) second := by
          rw [← hsecond]
          rcases Nat.lt_or_ge k 1 with hlt | hge
          · exact List.pairwise_iff_get.mp hdisj ⟨k, hk⟩ ⟨1, h1lt⟩ hlt
          · have hgt : 1 < k := by omega
            exact (List.pairwise_iff_get.mp hdisj ⟨1, h1lt⟩ ⟨k, hk⟩ hgt).symm
        rw [if_neg (fun hc => hdisj2 hi hc)]
    · rw [heq]
      by_cases h2 : 2 < (sortByLenDesc (_cluster_by_scale_compatibility
          (cfgs.map (fun c => c.data_range)) t)).length
      · simp [h2]
      · simp [h2]

/-- C1 witness: the hypotheses hold and the scenario conclusion follows at
two concrete all-auto chart configs with spans 20 and 3000. -/
theorem C1_auto_axis_policy_witness :
    (∀ c ∈ [({ data_range := (10, 30) } : ChartConfig),
            { data_range := (1000, 4000) }], c.y_axis = "auto") ∧
    (∃ r, OverlayChart
        [{ figure := some scenarioBarFigure },
         { figure := some scenarioLineFigure }] {} (some 3) none = .ok r ∧
      r.axis_assignments = ["left", "right"] ∧ r.hasRightAxis = true) :=
  ⟨by decide, (C1_auto_axis_policy
      [{ data_range := (10, 30) }, { data_range := (1000, 4000) }] 3
      (by decide)).2.2.2.2.2.2.2.2⟩

/-- An in-bounds `getD` read is a member of the list. -/
theorem getD_mem_self (cfgs : List ChartConfig) (i : ℕ) (hi : i < cfgs.length) :
    cfgs.getD i default ∈ cfgs := by
  rw [List.getD_eq_getElem?_getD, List.getElem?_eq_getElem hi]
  exact List.getElem_mem hi

/-- An in-bounds `get?` read returns the `getD` value. -/
theorem get?_eq_some_getD (cfgs : List ChartConfig) (i : ℕ)
    (hi : i < cfgs.length) :
    cfgs.get? i = some (cfgs.getD i default) := by
  rw [List.get?_eq_getElem?, List.getElem?_eq_getElem hi,
    List.getD_eq_getElem?_getD, List.getElem?_eq_getElem hi]
  rfl

/-- `any (· == "right")` detects exactly membership of `"right"`. -/
theorem any_right_iff (l : List String) :
    l.any (fun a => a == "right") = true ↔ "right" ∈ l := by
  rw [List.any_eq_true]
  constructor
  · rintro ⟨x, hx, he⟩
    rwa [eq_of_beq he] at hx
  · intro h
    exact ⟨"right", h, by decide⟩

/-- When every remaining index is compatible with the group members and
with every other remaining index, the inner clustering loop absorbs all
of them into the group. -/
theorem extendGroup_absorb (ranges : List DataRange) (t : ℚ) :
    ∀ (l g : List ℕ),
      (∀ a ∈ g, ∀ b ∈ l,
        _scale_compatible (rangeAt ranges a) (rangeAt ranges b) t = true) →
      (∀ a ∈ l, ∀ b ∈ l, a ≠ b →
        _scale_compatible (rangeAt ranges a) (rangeAt ranges b) t = true) →
      l.Nodup →
      extendGroup ranges t g l = (g ++ l, []) := by
  intro l
  induction l with
  | nil => intro g _ _ _; simp [extendGroup]
  | cons j rest ih =>
    intro g hP hQ hnd
    obtain ⟨hjr, hndr⟩ := List.nodup_cons.mp hnd
    have hall : g.all (fun k =>
        _scale_compatible (rangeAt ranges k) (rangeAt ranges j) t) = true :=
      List.all_eq_true.mpr (fun k hk => hP k hk j (List.mem_cons_self j rest))
    have hP' : ∀ a ∈ g ++ [j], ∀ b ∈ rest,
        _scale_compatible (rangeAt ranges a) (rangeAt ranges b) t = true := by
      intro a ha b hb
      rcases List.mem_append.mp ha with ha' | ha'
      · exact hP a ha' b (List.mem_cons_of_mem j hb)
      · rw [List.mem_singleton.mp ha']
        refine hQ j (List.mem_cons_self j rest) b (List.mem_cons_of_mem j hb) ?_
        intro hjb
        exact hjr (hjb ▸ hb)
    have hQ' : ∀ a ∈ rest, ∀ b ∈ rest, a ≠ b →
        _scale_compatible (rangeAt ranges a) (rangeAt ranges b) t = true :=
      fun a ha b hb hne =>
        hQ a (List.mem_cons_of_mem j ha) b (List.mem_cons_of_mem j hb) hne
    have hres := ih (g ++ [j]) hP' hQ' hndr
    simp only [extendGroup]
    rw [if_pos hall, hres]
    simp

/-- When all chart ranges are pairwise compatible, the greedy clustering
produces the single cluster of all chart indices. -/
theorem cluster_all_compat (ranges : List DataRange) (t : ℚ)
    (hQ : ∀ a b, a < ranges.length → b < ranges.length → a ≠ b →
      _scale_compatible (rangeAt ranges a) (rangeAt ranges b) t = true)
    (hn : ranges.length ≠ 0) :
    _cluster_by_scale_compatibility ranges t = [List.range ranges.length] := by
  unfold _cluster_by_scale_compatibility
  rw [if_neg hn]
  by_cases h1 : ranges.length = 1
  · rw [if_pos h1, h1]
    rfl
  · rw [if_neg h1]
    obtain ⟨m, hm⟩ : ∃ m, ranges.length = m + 1 := ⟨ranges.length - 1, by omega⟩
    cases hr : List.range ranges.length with
    | nil => exact absurd (by simpa using congrArg List.length hr) hn
    | cons i rest =>
      rw [hm]
      have hnd : (i :: rest).Nodup := hr ▸ List.nodup_range ranges.length
      obtain ⟨hir, hndr⟩ := List.nodup_cons.mp hnd
      have hmem : ∀ a ∈ i :: rest, a < ranges.length := by
        intro a ha
        rw [← hr] at ha
        exact List.mem_range.mp ha
      have habs := extendGroup_absorb ranges t rest [i] ?_ ?_ hndr
      · have hnil : buildGroups ranges t m [] = [] := by cases m <;> rfl
        simp only [buildGroups, habs, hnil]
        simp
      · intro a ha b hb
        rw [List.mem_singleton.mp ha]
        refine hQ i b (hmem i (List.mem_cons_self i rest))
          (hmem b (List.mem_cons_of_mem i hb)) ?_
        intro hib
        exact hir (hib ▸ hb)
      · intro a ha b hb hne
        exact hQ a b (hmem a (List.mem_cons_of_mem i ha))
          (hmem b (List.mem_cons_of_mem i hb)) hne

/-- Under all-`auto` bindings with pairwise-compatible ranges the
sequential policy also assigns every chart to the left axis. -/
theorem sequentialAssignments_all_left (cfgs : List ChartConfig) (t : ℚ)
    (hauto : ∀ c ∈ cfgs, c.y_axis = "auto")
    (hcompat : ∀ i j, i < cfgs.length → j < cfgs.length → i ≠ j →
      _scale_compatible (rangeOf cfgs i) (rangeOf cfgs j) t = true) :
    sequentialAssignments cfgs t = List.replicate cfgs.length "left" := by
  have h0 : 0 < cfgs.length → (sequentialAssignments cfgs t).get? 0 =
      some "left" := by
    intro h0n
    rw [sequentialAssignments_get cfgs t 0 h0n]
    have hy : (cfgs.getD 0 default).y_axis = "auto" :=
      hauto _ (getD_mem_self cfgs 0 h0n)
    simp only [List.take_zero, seqStep, hy]
    simp
  have hget : ∀ i, i < cfgs.length →
      (sequentialAssignments cfgs t).get? i = some "left" := by
    intro i hi
    cases i with
    | zero => exact h0 hi
    | succ k =>
      have h0n : 0 < cfgs.length := by omega
      rw [sequentialAssignments_get cfgs t (k + 1) hi]
      have hy : (cfgs.getD (k + 1) default).y_axis = "auto" :=
        hauto _ (getD_mem_self cfgs (k + 1) hi)
      have hlt : ((sequentialAssignments cfgs t).take (k + 1)).length = k + 1 := by
        rw [List.length_take, sequentialAssignments_length]
        omega
      have hz : (((sequentialAssignments cfgs t).take (k + 1)).zip
          (cfgs.take (k + 1))).get? 0 = some ("left", cfgs.getD 0 default) := by
        refine (List.get?_zip_eq_some _ _ _ _).mpr ⟨?_, ?_⟩
        · rw [List.get?_take (by omega)]
          exact h0 h0n
        · rw [List.get?_take (by omega)]
          exact get?_eq_some_getD cfgs 0 h0n
      have hcc := hcompat (k + 1) 0 hi h0n (by omega)
      simp only [rangeOf] at hcc
      have hany : (((sequentialAssignments cfgs t).take (k + 1)).zip
          (cfgs.take (k + 1))).any (fun p =>
            p.1 == "left" &&
              _scale_compatible (cfgs.getD (k + 1) default).data_range
                p.2.data_range t) = true := by
        refine List.any_eq_true.mpr
          ⟨("left", cfgs.getD 0 default), List.get?_mem hz, ?_⟩
        show ((("left" : String) == "left") &&
          _scale_compatible (cfgs.getD (k + 1) default).data_range
            (cfgs.getD 0 default).data_range t) = true
        rw [hcc, Bool.and_true]
        decide
      simp only [seqStep, hy]
      rw [if_neg (by decide), if_neg (by omega), if_pos hany]
  apply List.ext
  intro i
  by_cases hi : i < cfgs.length
  · rw [hget i hi, List.get?_eq_getElem?, List.getElem?_replicate, if_pos hi]
  · rw [List.get?_eq_getElem?, List.get?_eq_getElem?,
      List.getElem?_eq_none (by rw [sequentialAssignments_length]; omega),
      List.getElem?_eq_none (by rw [List.length_replicate]; omega)]

/-- `buildChartConfigs` on the two same-scale bar-chart scenario figures
with values 10/20/30 and 50/60/70. -/
theorem scenario_build2 :
    buildChartConfigs 0
      [{ figure := some scenarioBarFigure },
       { figure := some scenarioBarFigure2 }] =
      .ok [{ chart_data := { type := "barchart",
                             charts := [{ y := some [10, 20, 30],
                                          label := some ["A", "B", "C"] }],
                             metadata := scenarioBarFigure._chart_metadata.getD {} },
             data_range := (10, 30) },
           { chart_data := { type := "barchart",
                             charts := [{ y := some [50, 60, 70],
                                          label := some ["A", "B", "C"] }],
                             metadata := scenarioBarFigure2._chart_metadata.getD {} },
             data_range := (50, 70) }] := by
  norm_num [buildChartConfigs, _extract_chart_data, _get_data_range,
    collectYValues, chartYValues_barchart,
    scenarioBarFigure, scenarioBarFigure2,
    bind, Except.bind, Option.bind]

/-- C5: when every binding is `auto` and all data ranges are pairwise
scale-compatible at the threshold, both assignment policies put every
chart on the left axis; in any successful `OverlayChart` call the right
(twin) axis is instantiated iff some chart is assigned `"right"`; and the
two same-scale bar charts of the spec scenario both land on the left axis
with no right axis created. -/
theorem C5_no_unnecessary_right_axis (cfgs : List ChartConfig) (t : ℚ)
    (hauto : ∀ c ∈ cfgs, c.y_axis = "auto")
    (hcompat : ∀ i j, i < cfgs.length → j < cfgs.length → i ≠ j →
      _scale_compatible (rangeOf cfgs i) (rangeOf cfgs j) t = true) :
    (∀ w : Bool, (_determine_axis_assignment cfgs t w).1 =
      List.replicate cfgs.length "left") ∧
    (∀ (charts : List ChartEntry) (ccfg : ConfigMap) (athr : Option ℚ)
        (bm : Option String) (r : OverlayResult),
      OverlayChart charts ccfg athr bm = .ok r →
      (r.hasRightAxis = true ↔ "right" ∈ r.axis_assignments)) ∧
    (∃ r, OverlayChart
        [{ figure := some scenarioBarFigure },
         { figure := some scenarioBarFigure2 }] {} (some 3) none = .ok r ∧
      r.axis_assignments = ["left", "left"] ∧ r.hasRightAxis = false) := by
  refine ⟨?_, ?_, ?_⟩
  · -- both policies assign all-left
    intro w
    by_cases hn : cfgs.length = 0
    · rw [List.length_eq_zero] at hn
      subst hn
      cases w <;> simp [_determine_axis_assignment]
    · cases w with
      | false =>
        have hseq := sequentialAssignments_all_left cfgs t hauto hcompat
        simp only [_determine_axis_assignment, if_neg hn, Bool.and_false]
        rw [if_neg (by simp)]
        exact hseq
      | true =>
        have hall : cfgs.all (fun c => c.y_axis == "auto") = true := by
          rw [List.all_eq_true]
          intro c hc
          simp [hauto c hc]
        have hQ : ∀ a b, a < (cfgs.map (fun c => c.data_range)).length →
            b < (cfgs.map (fun c => c.data_range)).length → a ≠ b →
            _scale_compatible (rangeAt (cfgs.map (fun c => c.data_range)) a)
              (rangeAt (cfgs.map (fun c => c.data_range)) b) t = true := by
          intro a b ha hb hne
          rw [List.length_map] at ha hb
          rw [rangeAt_map cfgs a ha, rangeAt_map cfgs b hb]
          exact hcompat a b ha hb hne
        have hcl := cluster_all_compat (cfgs.map (fun c => c.data_range)) t hQ
          (by rw [List.length_map]; exact hn)
        have hs : sortByLenDesc [List.range cfgs.length] =
            [List.range cfgs.length] := by
          simp [sortByLenDesc, insertByLenDesc]
        have heq := determine_auto_eq cfgs t
          (sortByLenDesc (_cluster_by_scale_compatibility
            (cfgs.map (fun c => c.data_range)) t)) hn hall rfl
        rw [heq]
        rw [List.length_map] at hcl
        rw [hcl, hs]
        rfl
  · -- lazy right-axis instantiation
    intro charts ccfg athr bm r h
    by_cases hlen : charts.length = 0
    · simp only [OverlayChart, if_pos hlen] at h
      exact Except.noConfusion h
    · simp only [OverlayChart, if_neg hlen, bind, Except.bind] at h
      cases hb : buildChartConfigs 0 charts with
      | error e =>
        simp only [hb] at h
        exact Except.noConfusion h
      | ok built =>
        simp only [hb] at h
        injection h with h
        subst h
        exact any_right_iff _
  · -- the two same-scale bar charts
    have hdet2 : _determine_axis_assignment
        [{ chart_data := { type := "barchart",
                           charts := [{ y := some [10, 20, 30],
                                        label := some ["A", "B", "C"] }],
                           metadata := scenarioBarFigure._chart_metadata.getD {} },
           data_range := (10, 30) },
         { chart_data := { type := "barchart",
                           charts := [{ y := some [50, 60, 70],
                                        label := some ["A", "B", "C"] }],
                           metadata := scenarioBarFigure2._chart_metadata.getD {} },
           data_range := (50, 70) }] 3 true = (["left", "left"], []) := by
      norm_num [_determine_axis_assignment, _cluster_by_scale_compatibility,
        buildGroups, extendGroup, rangeAt, _scale_compatible, sortByLenDesc,
        insertByLenDesc, setAxisRight, List.range, List.range.loop, List.set,
        List.replicate]
    have e1 : (("left" : String) == "right") = false := by decide
    have e3 : (("barchart" : String) == "barchart") = true := by decide
    have hw : ((({} : ConfigMap)).overlay_warn_scale_groups.getD true) = true := rfl
    have hbm : ((({} : ConfigMap)).overlay_bar_mode.getD ("group")) = "group" := rfl
    have hwt : ((({} : ConfigMap)).overlay_warn_thin_bars.getD true) = true := rfl
    have hbw : ((({} : ConfigMap)).plot_bar_width.getD (4/5)) = 4/5 := rfl
    have hov2 : OverlayChart
        [{ figure := some scenarioBarFigure },
         { figure := some scenarioBarFigure2 }] {} (some 3) none =
        .ok { chart_configs :=
                [{ chart_data := { type := "barchart",
                                   charts := [{ y := some [10, 20, 30],
                                                label := some ["A", "B", "C"] }],
                                   metadata :=
                                     scenarioBarFigure._chart_metadata.getD {} },
                   data_range := (10, 30) },
                 { chart_data := { type := "barchart",
                                   charts := [{ y := some [50, 60, 70],
                                                label := some ["A", "B", "C"] }],
                                   metadata :=
                                     scenarioBarFigure2._chart_metadata.getD {} },
                   data_range := (50, 70) }],
              axis_assignments := ["left", "left"], hasRightAxis := false,
              bar_mode := "group", threshold := 3, warnings := [] } := by
      simp only [OverlayChart, List.length_cons, List.length_nil, bind,
        Except.bind, scenario_build2, hw, hbm, hwt, hbw, hdet2]
      norm_num [List.any, List.filter, e1, e3]
    exact ⟨_, hov2, rfl, rfl⟩

/-- C5 witness: the hypotheses hold and the scenario conclusion follows at
two concrete all-auto chart configs with equal spans 20 and 20. -/
theorem C5_no_unnecessary_right_axis_witness :
    (∀ c ∈ [({ data_range := (10, 30) } : ChartConfig),
            { data_range := (50, 70) }], c.y_axis = "auto") ∧
    (∃ r, OverlayChart
        [{ figure := some scenarioBarFigure },
         { figure := some scenarioBarFigure2 }] {} (some 3) none = .ok r ∧
      r.axis_assignments = ["left", "left"] ∧ r.hasRightAxis = false) :=
  ⟨by decide, (C5_no_unnecessary_right_axis
      [{ data_range := (10, 30) }, { data_range := (50, 70) }] 3
      (by decide)
      (by
        intro i j hi hj hne
        simp only [List.length_cons, List.length_nil] at hi hj
        interval_cases i <;> interval_cases j <;>
          first
            | exact absurd rfl hne
            | norm_num [_scale_compatible, rangeOf, List.getD])).2.2⟩

end Datachart
